import Mathlib

/-!
Boundary conversions of node-rdkafka (`src/common.cc`).

A shallow embedding of the conversion layer between the native Kafka client
(librdkafka's C++ interface) and the JavaScript host (V8 through Nan), and
the properties of that layer.

Modelling conventions.

* JavaScript values are the inductive type `Value`.  An object this layer
  builds is the insertion-ordered list of the fields it sets.  An object
  this layer reads (`JsObject`) has own fields and the properties it
  inherits along its prototype chain; `Nan::Has` and `Nan::Get` see both.
* A number is the integer it stands for.  A 32-bit integer becomes a number
  exactly; a 64-bit integer (`int64_t` offset, `size_t` length) becomes the
  nearest double, `toDouble`, which is the integer itself up to 2^53.
* What the host decides (how a value other than a string is coerced to a
  string, how a number is converted to a 64-bit integer, the largest buffer
  it makes) is a parameter, the structure `Host`.
* A `std::string` built from a `char*` (`std::string pString(*pVal)` on a
  `Nan::Utf8String`) and a JavaScript string built from `c_str()` hold the
  text before the first NUL character: `cStr`.  A JavaScript string built
  from a `std::string` itself (`Nan::New<v8::String>(topic)`) holds all of
  it.  Topic and host names owned by the native client cross its C interface
  as NUL-terminated text, the type `CText`.
* Counted `for` loops are folds over `List.range n`; iterator loops are
  folds over the sequence with the counter in the state.
* Native memory is explicit: the handles a pointer vector refers to live in
  a `HandleHeap`, message payloads in a `Memory` of byte blocks.  A read
  through a pointer that is not live has no defined result (`none`), and so
  has a call that aborts.  Failure of `malloc` is not modelled.
-/

namespace NodeKafka

/-! ## Machine integers -/

/-- Conversion to `int64_t`: the value modulo 2^64, in the signed range. -/
def toInt64 (x : Int) : Int := (x + 2 ^ 63) % 2 ^ 64 - 2 ^ 63

/-- Conversion to `int` (`static_cast<int>`): the value modulo 2^32, in the
signed range. -/
def toInt32 (x : Int) : Int := (x + 2 ^ 31) % 2 ^ 32 - 2 ^ 31

/-- Conversion to `uint32_t`: the value modulo 2^32. -/
def toUInt32 (x : Int) : Nat := (x % 2 ^ 32).toNat

/-- The values of type `int`. -/
def IsInt32 (x : Int) : Prop := -(2 : Int) ^ 31 ≤ x ∧ x < 2 ^ 31

instance (x : Int) : Decidable (IsInt32 x) := by
  unfold IsInt32; infer_instance

/-- The number of binary digits of `a`, counted with `fuel` halvings. -/
def bitLengthAux : Nat → Nat → Nat
  | 0, _ => 0
  | fuel + 1, a => if a = 0 then 0 else bitLengthAux fuel (a / 2) + 1

/-- The number of binary digits of a natural number. -/
def bitLength (a : Nat) : Nat := bitLengthAux a a

/-- Conversion of an integer to `double`, as an integer again: the integer
itself up to 2^53 in absolute value, beyond that the nearest integer with 53
significant binary digits, ties to the even one. -/
def toDouble (x : Int) : Int :=
  if x.natAbs ≤ 2 ^ 53 then x
  else
    let shift := bitLength x.natAbs - 53
    let q := x.natAbs / 2 ^ shift
    let r := x.natAbs % 2 ^ shift
    let half := 2 ^ (shift - 1)
    let q1 := if half < r ∨ (r = half ∧ q % 2 = 1) then q + 1 else q
    Int.sign x * ((q1 * 2 ^ shift : Nat) : Int)

/-! ## Text -/

/-- The NUL character that ends a C string. -/
def NUL : Char := Char.ofNat 0

/-- The text a `char*` reader sees: everything before the first NUL.  This is
the `std::string` made by `std::string pString(*pVal)` from a
`Nan::Utf8String`, and the JavaScript string made by `Nan::New` from
`c_str()`. -/
def cStr (s : String) : String := String.mk (s.data.takeWhile (fun c => c != NUL))

/-- No NUL character occurs in the text. -/
def nulFree (s : String) : Bool := s.data.all (fun c => c != NUL)

/-- Text owned by the native client: a NUL-terminated C string. -/
abbrev CText := { s : String // nulFree s = true }

/-! ## JavaScript values -/

/-- An address in native memory. -/
abbrev Ptr := Nat

/-- A JavaScript value. -/
inductive Value where
  | undefined
  | null
  | boolean (b : Bool)
  | number (n : Int)
  | string (s : String)
  | symbol (description : String)
  | regexp (source : String)
  | function (name : String)
  | array (elements : List Value)
  | object (fields : List (String × Value))
  | buffer (data : Ptr) (length : Nat)

namespace Value

/-- The test `v->IsNumber()`. -/
def IsNumber : Value → Bool
  | number _ => true
  | _ => false

/-- The test `v->IsRegExp()`. -/
def IsRegExp : Value → Bool
  | regexp _ => true
  | _ => false

/-- The test `v->IsUndefined()`. -/
def IsUndefined : Value → Bool
  | undefined => true
  | _ => false

/-- The test `v->IsNull()`. -/
def IsNull : Value → Bool
  | null => true
  | _ => false

end Value

/-- The coercions that the host runtime decides. -/
structure Host where
  /-- The string a value other than a string is coerced to, when the
  coercion does not throw. -/
  coerceString : Value → Option String
  /-- The integer a value is converted to (`IntegerValue`), when the
  conversion does not throw. -/
  integerValue : Value → Option Int
  /-- The largest number of bytes of a buffer, `node::Buffer::kMaxLength`. -/
  kMaxLength : Nat

/-- An object as `Nan::Has` and `Nan::Get` see it: its own fields, and the
properties it inherits along its prototype chain, nearest first. -/
structure JsObject where
  own : List (String × Value)
  inherited : List (String × Value)

namespace Record

/-- The list of fields has a field of that name. -/
def has (fields : List (String × Value)) (key : String) : Bool :=
  fields.any (fun kv => kv.1 == key)

/-- The value of the field of that name, `undefined` when there is none. -/
def get (fields : List (String × Value)) (key : String) : Value :=
  match fields.find? (fun kv => kv.1 == key) with
  | some kv => kv.2
  | none => Value.undefined

end Record

namespace Nan

/-- The test `Nan::Has(object, key).FromMaybe(false)`: the property is an own
field or is inherited. -/
def Has (object : JsObject) (key : String) : Bool :=
  Record.has object.own key || Record.has object.inherited key

/-- The read `Nan::Get(object, key).ToLocalChecked()`: the own field when
there is one, else the inherited property, else `undefined`. -/
def Get (object : JsObject) (key : String) : Value :=
  if Record.has object.own key then Record.get object.own key
  else Record.get object.inherited key

/-- The write `Nan::Set(object, key, value)` on an object this layer has
created, given by its fields: replaces the field when it is there, adds it
otherwise. -/
def Set (object : List (String × Value)) (key : String) (value : Value) :
    List (String × Value) :=
  if object.any (fun kv => kv.1 == key) then
    object.map (fun kv => if kv.1 == key then (kv.1, value) else kv)
  else object ++ [(key, value)]

/-- The coercion `Nan::To<v8::String>(value)`: a string is itself, any
other value is coerced by the host; `none` is the empty handle. -/
def ToString (h : Host) : Value → Option String
  | Value.string s => some s
  | v => h.coerceString v

/-- The conversion `Nan::To<int64_t>(value)`. -/
def ToInt64 (h : Host) (v : Value) : Option Int :=
  (h.integerValue v).map toInt64

/-- The read `array->Get(i)`: the element, `undefined` past the end. -/
def ArrayGet (array : List Value) (i : Nat) : Value :=
  array[i]?.getD Value.undefined

/-- The write `array->Set(i, value)`: replaces the element when `i` is
inside the array, otherwise grows the array up to index `i`. -/
def ArraySet (array : List Value) (i : Nat) (value : Value) : List Value :=
  if i < array.length then array.set i value
  else array ++ List.replicate (i - array.length) Value.undefined ++ [value]

end Nan

/-- The generic `GetParameter<T>`; `conv` is the conversion `Nan::To<T>`. -/
def GetParameter {T : Type} (conv : Value → Option T)
    (object : JsObject) (field_name : String) (d : T) : T :=
  let field := cStr field_name
  if Nan.Has object field then
    match conv (Nan.Get object field) with
    | none => d
    | some t => t
  else d

/-- The specialisation `GetParameter<int64_t>`. -/
def GetParameter_int64_t (h : Host) (object : JsObject)
    (field_name : String) (d : Int) : Int :=
  let field := cStr field_name
  if Nan.Has object field then
    let v := Nan.Get object field
    if !v.IsNumber then d
    else
      match Nan.ToInt64 h v with
      | none => d
      | some n => n
  else d

/-- The specialisation `GetParameter<int>`. -/
def GetParameter_int (h : Host) (object : JsObject)
    (field_name : String) (d : Int) : Int :=
  toInt32 (GetParameter_int64_t h object field_name d)

/-- The specialisation `GetParameter<std::string>`; `none` when the coerced
string handle is empty and is dereferenced. -/
def GetParameter_string (h : Host) (object : JsObject)
    (field_name : String) (d : String) : Option String :=
  let field := cStr field_name
  if Nan.Has object field then
    let parameter := Nan.Get object field
    if !parameter.IsUndefined && !parameter.IsNull then
      match Nan.ToString h parameter with
      | none => none
      | some val =>
        if !(Value.string val).IsUndefined && !(Value.string val).IsNull then
          some (cStr val)
        else some d
    else some d
  else some d

/-- The conversion `v8ArrayToStringVector`. -/
def v8ArrayToStringVector (h : Host) (parameter : List Value) : List String :=
  if parameter.length ≥ 1 then
    (List.range parameter.length).foldl
      (fun newItem i =>
        match Nan.ToString h (Nan.ArrayGet parameter i) with
        | none => newItem
        | some p => newItem ++ [cStr p])
      []
  else []

/-- The specialisation `GetParameter<std::vector<std::string>>`. -/
def GetParameter_string_vector (h : Host) (object : JsObject)
    (field_name : String) (d : List String) : List String :=
  let field := cStr field_name
  if Nan.Has object field then
    match Nan.Get object field with
    | Value.array parameter => v8ArrayToStringVector h parameter
    | _ => d
  else d

/-! ## Native client types (librdkafka, read through their accessors) -/

namespace RdKafka

/-- The sentinel `RdKafka::Topic::OFFSET_INVALID`: no offset assigned. -/
def OFFSET_INVALID : Int := -1001

/-- The error code `RdKafka::ERR_NO_ERROR`. -/
def ERR_NO_ERROR : Int := 0

/-- A topic-partition handle `RdKafka::TopicPartition`. -/
structure TopicPartition where
  topic : CText
  partition : Int
  offset : Int

/-- A broker descriptor `RdKafka::BrokerMetadata`. -/
structure BrokerMetadata where
  id : Int
  host : CText
  port : Int

/-- A partition descriptor `RdKafka::PartitionMetadata`. -/
structure PartitionMetadata where
  id : Int
  leader : Int
  replicas : List Int
  isrs : List Int

/-- A topic descriptor `RdKafka::TopicMetadata`. -/
structure TopicMetadata where
  topic : CText
  partitions : List PartitionMetadata

/-- A cluster-metadata snapshot `RdKafka::Metadata`. -/
structure Metadata where
  brokers : List BrokerMetadata
  topics : List TopicMetadata
  orig_broker_id : Int
  orig_broker_name : String

/-- A consumed-message handle `RdKafka::Message`: the payload is an address
and a length, the key is absent or a string. -/
structure Message where
  err : Int
  payload : Ptr
  len : Nat
  key : Option String
  topic_name : String
  offset : Int
  partition : Int

end RdKafka

/-! ## Native memory -/

/-- The topic-partition handles that are alive, and the record of every
`delete` performed, in order. -/
structure HandleHeap where
  live : Ptr → Option RdKafka.TopicPartition
  deleted : List Ptr

/-- The statement `delete p`. -/
def HandleHeap.delete (heap : HandleHeap) (p : Ptr) : HandleHeap :=
  { live := fun q => if q = p then none else heap.live q
    deleted := heap.deleted ++ [p] }

/-- The byte blocks that are allocated, by address. -/
structure Memory where
  blocks : List (Ptr × List UInt8)

namespace Memory

/-- The bytes of the block at an address, when one is allocated there. -/
def read (m : Memory) (p : Ptr) : Option (List UInt8) :=
  m.blocks.lookup p

/-- Replaces the bytes of the block at an address. -/
def write (m : Memory) (p : Ptr) (bytes : List UInt8) : Memory :=
  { blocks := m.blocks.map (fun b => if b.1 == p then (b.1, bytes) else b) }

/-- An address that is not null and holds no block. -/
def fresh (m : Memory) : Ptr :=
  (m.blocks.map Prod.fst).foldr max 0 + 1

/-- The call `malloc(n)`: a new block of `n` bytes at a fresh address (the
content of the block is not specified by `malloc`; it is zero here). -/
def malloc (m : Memory) (n : Nat) : Ptr × Memory :=
  (m.fresh, { blocks := m.blocks ++ [(m.fresh, List.replicate n 0)] })

/-- The call `memcpy(dst, src, n)`: copies the first `n` bytes of the block
at `src` over the first `n` bytes of the block at `dst`; not defined when
either block is missing or shorter than `n`, unless `n` is 0. -/
def memcpy (m : Memory) (dst src : Ptr) (n : Nat) : Option Memory :=
  if n = 0 then some m
  else
    match m.read src, m.read dst with
    | some s, some d =>
      if n ≤ s.length ∧ n ≤ d.length then some (m.write dst (s.take n ++ d.drop n))
      else none
    | _, _ => none

/-- The call `free(p)`: the block at the address is no longer allocated. -/
def free (m : Memory) (p : Ptr) : Memory :=
  { blocks := m.blocks.filter (fun b => !(b.1 == p)) }

/-- The `n` bytes at an address, as a handle exposes its payload (pointer
and length); not defined when no block is there or the block is shorter,
unless `n` is 0. -/
def readBytes (m : Memory) (p : Ptr) (n : Nat) : Option (List UInt8) :=
  if n = 0 then some []
  else
    match m.read p with
    | some s => if n ≤ s.length then some (s.take n) else none
    | none => none

/-- The bytes seen through a buffer value: the first `length` bytes of the
block it wraps. -/
def bufferBytes (m : Memory) : Value → Option (List UInt8)
  | Value.buffer data length => (m.read data).map (fun b => b.take length)
  | _ => none

end Memory

namespace Nan

/-- The call `Nan::NewBuffer(data, size).ToLocalChecked()`: a buffer that
wraps the block at `data`; the size parameter has type `uint32_t`, and the
call aborts (`none`) when the size is above the host's largest buffer. -/
def NewBuffer (h : Host) (data : Ptr) (size : Int) : Option Value :=
  if toUInt32 size ≤ h.kMaxLength then some (Value.buffer data (toUInt32 size))
  else none

/-- The source text of a pattern, `GetSource()`. -/
def GetSource : Value → String
  | Value.regexp source => source
  | _ => ""

/-- An iterator loop that stores one value per entry, `array->Set(i, f(*it))`
with the counter `i` advanced together with the iterator. -/
def SetEach {α : Type} (f : α → Value) (xs : List α) : List Value :=
  (xs.foldl (fun (st : List Value × Nat) x => (ArraySet st.1 st.2 (f x), st.2 + 1))
    ([], 0)).1

end Nan

namespace Conversion

/-! ## String list codec -/

namespace Topic

/-- The body of the loop of `Topic::ToStringVector` at index `i`. -/
def ToStringVectorStep (h : Host) (parameter : List Value) (newItem : List String)
    (i : Nat) : List String :=
  let element := Nan.ArrayGet parameter i
  if !element.IsRegExp then
    match Nan.ToString h element with
    | none => newItem
    | some p => newItem ++ [cStr p]
  else
    let pString := cStr (Nan.GetSource element)
    let _regexString := "\"" ++ pString ++ "\""
    newItem ++ [pString]

/-- The conversion `Topic::ToStringVector`. -/
def ToStringVector (h : Host) (parameter : List Value) : List String :=
  if parameter.length ≥ 1 then
    (List.range parameter.length).foldl (ToStringVectorStep h parameter) []
  else []

/-- The conversion `Topic::ToV8Array`; `Nan::New<v8::String>(topic)` takes
the `std::string` with its length, so the JavaScript string is the whole
entry. -/
def ToV8Array (parameter : List String) : List Value :=
  (List.range parameter.length).foldl
    (fun newItem i =>
      let topic := parameter[i]?.getD ""
      Nan.ArraySet newItem i (Value.string topic))
    []

end Topic

/-! ## Topic-partition codec -/

namespace TopicPartition

/-- The record built for one handle in `TopicPartition::ToV8Array`; the
offset is an `int64_t` and becomes a double, the partition is an `int`. -/
def ToV8ArrayRecord (topic_partition : RdKafka.TopicPartition) : List (String × Value) :=
  let obj : List (String × Value) := []
  let obj :=
    if topic_partition.offset ≠ RdKafka.OFFSET_INVALID then
      Nan.Set obj "offset" (Value.number (toDouble topic_partition.offset))
    else obj
  let obj := Nan.Set obj "partition" (Value.number topic_partition.partition)
  let obj := Nan.Set obj "topic" (Value.string (cStr topic_partition.topic.val))
  obj

/-- The body of the loop of `TopicPartition::ToV8Array` at index
`topic_partition_i`: reads the handle, stores its record, deletes it. -/
def ToV8ArrayStep (topic_partition_list : List Ptr)
    (st : Option (List Value × HandleHeap)) (topic_partition_i : Nat) :
    Option (List Value × HandleHeap) :=
  match st with
  | none => none
  | some (array, heap) =>
    match topic_partition_list[topic_partition_i]? with
    | none => none
    | some topic_partition =>
      match heap.live topic_partition with
      | none => none
      | some tp =>
        some (Nan.ArraySet array topic_partition_i (Value.object (ToV8ArrayRecord tp)),
          heap.delete topic_partition)

/-- The conversion `TopicPartition::ToV8Array`: the array, the heap after
the call and the vector after the call (it is passed by reference). -/
def ToV8Array (heap : HandleHeap) (topic_partition_list : List Ptr) :
    Option (List Value × HandleHeap × List Ptr) :=
  match (List.range topic_partition_list.length).foldl
      (ToV8ArrayStep topic_partition_list) (some ([], heap)) with
  | none => none
  | some (array, heap1) => some (array, heap1, [])

end TopicPartition

/-! ## Metadata tree builder -/

namespace Metadata

/-- The object built for one broker. -/
def ToV8ObjectBroker (x : RdKafka.BrokerMetadata) : Value :=
  let current_broker : List (String × Value) := []
  let current_broker := Nan.Set current_broker "id" (Value.number x.id)
  let current_broker := Nan.Set current_broker "host" (Value.string (cStr x.host.val))
  let current_broker := Nan.Set current_broker "port" (Value.number x.port)
  Value.object current_broker

/-- The object built for one partition. -/
def ToV8ObjectPartition (xx : RdKafka.PartitionMetadata) : Value :=
  let current_partition : List (String × Value) := []
  let current_partition := Nan.Set current_partition "id" (Value.number xx.id)
  let current_partition := Nan.Set current_partition "leader" (Value.number xx.leader)
  let current_replicas := Nan.SetEach Value.number xx.replicas
  let current_isrs := Nan.SetEach Value.number xx.isrs
  let current_partition := Nan.Set current_partition "replicas" (Value.array current_replicas)
  let current_partition := Nan.Set current_partition "isrs" (Value.array current_isrs)
  Value.object current_partition

/-- The object built for one topic. -/
def ToV8ObjectTopic (x : RdKafka.TopicMetadata) : Value :=
  let current_topic : List (String × Value) := []
  let current_topic := Nan.Set current_topic "name" (Value.string (cStr x.topic.val))
  let current_topic_partitions := Nan.SetEach ToV8ObjectPartition x.partitions
  let current_topic := Nan.Set current_topic "partitions" (Value.array current_topic_partitions)
  Value.object current_topic

/-- The conversion `Metadata::ToV8Object`. -/
def ToV8Object (metadata : RdKafka.Metadata) : Value :=
  let obj : List (String × Value) := []
  let broker_data := Nan.SetEach ToV8ObjectBroker metadata.brokers
  let topic_data := Nan.SetEach ToV8ObjectTopic metadata.topics
  let obj := Nan.Set obj "orig_broker_id" (Value.number metadata.orig_broker_id)
  let obj := Nan.Set obj "orig_broker_name" (Value.string metadata.orig_broker_name)
  let obj := Nan.Set obj "topics" (Value.array topic_data)
  let obj := Nan.Set obj "brokers" (Value.array broker_data)
  Value.object obj

end Metadata

/-! ## Message codec -/

namespace Message

/-- The fields that `Message::ToV8Object` sets on the object of a message
without error, `buff` being the buffer made of the copied payload.  The
length is a `size_t` and the offset an `int64_t`, both become doubles; the
partition is a 32-bit integer. -/
def ToV8ObjectPack (message : RdKafka.Message) (buff : Value) : List (String × Value) :=
  let pack : List (String × Value) := []
  let pack := Nan.Set pack "value" buff
  let pack := Nan.Set pack "size" (Value.number (toDouble message.len))
  let pack :=
    match message.key with
    | some key => Nan.Set pack "key" (Value.string key)
    | none => Nan.Set pack "key" Value.null
  let pack := Nan.Set pack "topic" (Value.string message.topic_name)
  let pack := Nan.Set pack "offset" (Value.number (toDouble message.offset))
  let pack := Nan.Set pack "partition" (Value.number message.partition)
  pack

/-- The conversion `Message::ToV8Object`; `RdKafkaError` is the error
factory of the repository's error module.  The result is the value and the
memory after the call; there is none when the payload cannot be read or the
buffer cannot be made. -/
def ToV8Object (h : Host) (RdKafkaError : Int → Value) (mem : Memory)
    (message : RdKafka.Message) : Option (Value × Memory) :=
  if message.err = RdKafka.ERR_NO_ERROR then
    let allocated := mem.malloc message.len
    match allocated.2.memcpy allocated.1 message.payload message.len with
    | none => none
    | some mem2 =>
      match Nan.NewBuffer h allocated.1 (toInt32 message.len) with
      | none => none
      | some buff => some (Value.object (ToV8ObjectPack message buff), mem2)
  else some (RdKafkaError message.err, mem)

end Message

end Conversion

/-! ## Concrete inputs -/

/-- A host in which numbers and symbols are not convertible to string, only
numbers convert to an integer, and a buffer has at most 2^30 - 1 bytes. -/
def exampleHost : Host :=
  { coerceString := fun v =>
      match v with
      | Value.number _ => none
      | Value.symbol _ => none
      | _ => some "[object]"
    integerValue := fun v =>
      match v with
      | Value.number n => some n
      | _ => none
    kMaxLength := 1073741823 }

/-- A host in which numbers and booleans print, null and undefined print
their names, a pattern prints between slashes, a function prints as native
code, symbols are not convertible to string, only numbers convert to an
integer, and a buffer has at most 2^30 - 1 bytes. -/
def printingHost : Host :=
  { coerceString := fun v =>
      match v with
      | Value.number n => some (toString n)
      | Value.boolean b => some (if b then "true" else "false")
      | Value.undefined => some "undefined"
      | Value.null => some "null"
      | Value.symbol _ => none
      | Value.regexp source => some ("/" ++ source ++ "/")
      | Value.function name => some ("function " ++ name ++ "() \x7b [native code] \x7d")
      | _ => some "[object Object]"
    integerValue := fun v =>
      match v with
      | Value.number n => some n
      | _ => none
    kMaxLength := 1073741823 }

/-- Properties every plain object inherits from `Object.prototype`. -/
def objectPrototype : List (String × Value) :=
  [("constructor", Value.function "Object"),
   ("hasOwnProperty", Value.function "hasOwnProperty"),
   ("isPrototypeOf", Value.function "isPrototypeOf"),
   ("propertyIsEnumerable", Value.function "propertyIsEnumerable"),
   ("toLocaleString", Value.function "toLocaleString"),
   ("toString", Value.function "toString"),
   ("valueOf", Value.function "valueOf")]

/-- A plain object, as an object literal makes it: the given own fields,
and `Object.prototype` behind them. -/
def plainObject (own : List (String × Value)) : JsObject :=
  { own := own, inherited := objectPrototype }

/-- Three live handles at the addresses 1, 2 and 3, with the offsets 17, 0
and the sentinel. -/
def exampleHandles : HandleHeap :=
  { live := fun p =>
      if p = 1 then some { topic := ⟨"t", by decide⟩, partition := 0, offset := 17 }
      else if p = 2 then some { topic := ⟨"t", by decide⟩, partition := 1, offset := 0 }
      else if p = 3 then
        some { topic := ⟨"u", by decide⟩, partition := 2, offset := RdKafka.OFFSET_INVALID }
      else none
    deleted := [] }

/-- A snapshot with one broker and one topic with two partitions. -/
def exampleMetadata : RdKafka.Metadata :=
  { brokers := [{ id := 1, host := ⟨"h", by decide⟩, port := 9092 }]
    topics :=
      [{ topic := ⟨"t", by decide⟩
         partitions :=
           [{ id := 0, leader := 1, replicas := [1], isrs := [1] },
            { id := 1, leader := 1, replicas := [1], isrs := [] }] }]
    orig_broker_id := 1
    orig_broker_name := "b1" }

/-- An error factory: an object with the fields `message` and `code`. -/
def exampleError (code : Int) : Value :=
  Value.object [("message", Value.string "Local: Broker transport failure"),
    ("code", Value.number code)]

/-- A memory with one block, the three payload bytes 1, 2, 3 at address 5. -/
def exampleMemory : Memory :=
  { blocks := [(5, [1, 2, 3])] }

/-- A consumed message without error: payload at address 5 of length 3,
key k, topic t, offset 5, partition 0. -/
def exampleMessage : RdKafka.Message :=
  { err := RdKafka.ERR_NO_ERROR, payload := 5, len := 3, key := some "k",
    topic_name := "t", offset := 5, partition := 0 }

/-- The length 2^32, the least that the cast to `int` turns into 0. -/
def bigLength : Nat := 4294967296

/-- A memory with one block of 2^32 zero bytes at address 1. -/
def bigMemory : Memory :=
  { blocks := [(1, List.replicate bigLength 0)] }

/-- A consumed message without error whose payload is the 2^32 bytes at
address 1. -/
def bigMessage : RdKafka.Message :=
  { err := RdKafka.ERR_NO_ERROR, payload := 1, len := bigLength, key := none,
    topic_name := "t", offset := 0, partition := 0 }

/-- The length 2^32 + 1, which the cast to `int` turns into 1. -/
def hugeLength : Nat := 4294967297

/-- A memory with one block of 2^32 + 1 zero bytes at address 1. -/
def hugeMemory : Memory :=
  { blocks := [(1, List.replicate hugeLength 0)] }

/-- A consumed message without error whose payload is the 2^32 + 1 bytes at
address 1. -/
def hugeMessage : RdKafka.Message :=
  { err := RdKafka.ERR_NO_ERROR, payload := 1, len := hugeLength, key := none,
    topic_name := "t", offset := 0, partition := 0 }

/-- One live handle at the address 1 whose offset is 2^53 + 1. -/
def roundingHandles : HandleHeap :=
  { live := fun p =>
      if p = 1 then
        some { topic := ⟨"t", by decide⟩, partition := 0, offset := 9007199254740993 }
      else none
    deleted := [] }

/-- The length 2^30, one more than the largest buffer of `exampleHost`. -/
def overLimitLength : Nat := 1073741824

/-- A memory with one block of 2^30 zero bytes at address 1. -/
def overLimitMemory : Memory :=
  { blocks := [(1, List.replicate overLimitLength 0)] }

/-- A consumed message without error whose payload is the 2^30 bytes at
address 1. -/
def overLimitMessage : RdKafka.Message :=
  { err := RdKafka.ERR_NO_ERROR, payload := 1, len := overLimitLength, key := none,
    topic_name := "t", offset := 0, partition := 0 }

/-- The length 2^31, the least that does not fit in an `int`. -/
def intOverflowLength : Nat := 2147483648

/-- A memory with one block of 2^31 zero bytes at address 1. -/
def intOverflowMemory : Memory :=
  { blocks := [(1, List.replicate intOverflowLength 0)] }

/-- A consumed message without error whose payload is the 2^31 bytes at
address 1. -/
def intOverflowMessage : RdKafka.Message :=
  { err := RdKafka.ERR_NO_ERROR, payload := 1, len := intOverflowLength, key := none,
    topic_name := "t", offset := 0, partition := 0 }

/-! ## Lemmas on text, integers and loops -/

open Conversion

/-- Reading C text through a `char*` loses nothing. -/
theorem cStr_of_nulFree (s : String) (hs : nulFree s = true) : cStr s = s := by
  unfold cStr
  have : s.data.takeWhile (fun c => c != NUL) = s.data := by
    rw [List.takeWhile_eq_self_iff]
    intro c hc
    unfold nulFree at hs
    rw [List.all_eq_true] at hs
    exact hs c hc
  rw [this]

/-- Narrowing to `int` keeps a value that is an `int`. -/
theorem toInt32_of_IsInt32 (x : Int) (hx : IsInt32 x) : toInt32 x = x := by
  unfold toInt32
  unfold IsInt32 at hx
  omega

/-- A counted loop over a sequence extended by one entry is the loop over
the sequence followed by one more step, when a step at an index only
depends on the sequence up to that index. -/
theorem foldl_range_snoc {σ α : Type} (F : List α → σ → Nat → σ)
    (hF : ∀ (l : List α) (a : α) (s : σ) (i : Nat), i < l.length → F (l ++ [a]) s i = F l s i)
    (l : List α) (a : α) (s : σ) :
    (List.range (l ++ [a]).length).foldl (F (l ++ [a])) s
      = F (l ++ [a]) ((List.range l.length).foldl (F l) s) l.length := by
  rw [List.length_append, List.length_singleton, List.range_succ, List.foldl_append]
  simp only [List.foldl_cons, List.foldl_nil]
  congr 1
  apply List.foldl_ext
  intro s i hi
  exact hF l a s i (List.mem_range.mp hi)

/-- Claim C1, amended: when the field named by `f` read as C text (up to its
first NUL) is found neither among the own fields of the configuration object
nor along its prototype chain, every extractor (64-bit integer, int, string,
string vector and the generic path with any conversion) returns the supplied
default. -/
theorem GetParameter_absent_field (h : Host) (object : JsObject) (f : String)
    (habsent : Nan.Has object (cStr f) = false) :
    (∀ d : Int, GetParameter_int64_t h object f d = d) ∧
    (∀ d : Int, IsInt32 d → GetParameter_int h object f d = d) ∧
    (∀ d : String, GetParameter_string h object f d = some d) ∧
    (∀ d : List String, GetParameter_string_vector h object f d = d) ∧
    (∀ (T : Type) (conv : Value → Option T) (d : T), GetParameter conv object f d = d) := by
  have h64 : ∀ d : Int, GetParameter_int64_t h object f d = d := by
    intro d; simp [GetParameter_int64_t, habsent]
  refine ⟨h64, ?_, ?_, ?_, ?_⟩
  · intro d hd
    unfold GetParameter_int
    rw [h64 d]
    exact toInt32_of_IsInt32 d hd
  · intro d; simp [GetParameter_string, habsent]
  · intro d; simp [GetParameter_string_vector, habsent]
  · intro T conv d; simp [GetParameter, habsent]

/-- Claim C1, amended, at a plain object without the field `count`. -/
theorem GetParameter_absent_field_witness :
    Nan.Has (plainObject [("other", Value.number 1)]) (cStr "count") = false ∧
    GetParameter_int64_t exampleHost (plainObject [("other", Value.number 1)]) "count" 7
      = 7 ∧
    GetParameter_int exampleHost (plainObject [("other", Value.number 1)]) "count" 7 = 7 ∧
    GetParameter_string exampleHost (plainObject [("other", Value.number 1)]) "count" "d"
      = some "d" ∧
    GetParameter_string_vector exampleHost (plainObject [("other", Value.number 1)])
      "count" ["d"] = ["d"] ∧
    GetParameter exampleHost.integerValue (plainObject [("other", Value.number 1)])
      "count" 7 = 7 :=
  have t := GetParameter_absent_field exampleHost (plainObject [("other", Value.number 1)])
    "count" (by decide)
  ⟨by decide, t.1 7, t.2.1 7 (by decide), t.2.2.1 "d", t.2.2.2.1 ["d"],
    t.2.2.2.2 Int exampleHost.integerValue 7⟩

/-- Claim C1 fails as stated.  The object with the one field `count` has no
field named by the seven characters c, o, u, n, t, NUL, x, own or inherited,
yet integer extraction of that name returns 5, not the default 7: the name
is read up to its NUL.  And the empty object literal has no own field
`toString`, yet string extraction of `toString` returns the text of the
inherited function, not the default. -/
theorem GetParameter_absent_field_fails :
    Nan.Has (plainObject [("count", Value.number 5)]) "count\x00x" = false ∧
    GetParameter_int64_t exampleHost (plainObject [("count", Value.number 5)]) "count\x00x" 7
      = 5 ∧
    GetParameter_int exampleHost (plainObject [("count", Value.number 5)]) "count\x00x" 7 = 5 ∧
    Record.has (plainObject []).own "toString" = false ∧
    GetParameter_string printingHost (plainObject []) "toString" "d"
      = some "function toString() \x7b [native code] \x7d" ∧
    GetParameter_string printingHost (plainObject []) "toString" "d" ≠ some "d" := by
  decide

theorem ArrayGet_append_left (l : List Value) (a : Value) (i : Nat) (hi : i < l.length) :
    Nan.ArrayGet (l ++ [a]) i = Nan.ArrayGet l i := by
  unfold Nan.ArrayGet
  rw [List.getElem?_append_left hi]

theorem ArrayGet_length (l : List Value) (a : Value) :
    Nan.ArrayGet (l ++ [a]) l.length = a := by
  unfold Nan.ArrayGet
  simp

theorem ArraySet_length (l : List Value) (a : Value) :
    Nan.ArraySet l l.length a = l ++ [a] := by
  unfold Nan.ArraySet
  simp

theorem v8ArrayToStringVector_fold (h : Host) (parameter : List Value) :
    (List.range parameter.length).foldl
      (fun newItem i =>
        match Nan.ToString h (Nan.ArrayGet parameter i) with
        | none => newItem
        | some p => newItem ++ [cStr p])
      []
    = parameter.filterMap (fun v => (Nan.ToString h v).map cStr) := by
  induction parameter using List.reverseRecOn with
  | nil => rfl
  | append_singleton l a ih =>
    rw [foldl_range_snoc
      (fun (parameter : List Value) (newItem : List String) (i : Nat) =>
        match Nan.ToString h (Nan.ArrayGet parameter i) with
        | none => newItem
        | some p => newItem ++ [cStr p])
      (by intro l a s i hi; simp only [ArrayGet_append_left l a i hi])]
    simp only [ih, ArrayGet_length, List.filterMap_append]
    cases hto : Nan.ToString h a <;> simp [hto]

/-- The conversion `v8ArrayToStringVector` as a filter over the array. -/
theorem v8ArrayToStringVector_eq (h : Host) (parameter : List Value) :
    v8ArrayToStringVector h parameter
      = parameter.filterMap (fun v => (Nan.ToString h v).map cStr) := by
  unfold v8ArrayToStringVector
  split
  · exact v8ArrayToStringVector_fold h parameter
  · next hlen =>
    have : parameter = [] := by
      cases parameter with
      | nil => rfl
      | cons a l => simp at hlen
    rw [this]; rfl

/-- The conversion `Topic::ToV8Array` as a map over the collection. -/
theorem Topic_ToV8Array_eq (parameter : List String) :
    Topic.ToV8Array parameter = parameter.map Value.string := by
  unfold Topic.ToV8Array
  induction parameter using List.reverseRecOn with
  | nil => rfl
  | append_singleton l a ih =>
    rw [foldl_range_snoc
      (fun (parameter : List String) (newItem : List Value) (i : Nat) =>
        Nan.ArraySet newItem i (Value.string (parameter[i]?.getD "")))
      (by intro l a s i hi; simp only [List.getElem?_append_left hi])]
    simp only [ih]
    have hlen : l.length = (l.map Value.string).length := by simp
    simp only [List.getElem?_concat_length, Option.getD_some, List.map_append, List.map_cons,
      List.map_nil]
    conv => lhs; rw [hlen]
    exact ArraySet_length _ _


theorem length_filterMap_eq_countP {α β : Type} (f : α → Option β) (l : List α) :
    (l.filterMap f).length = l.countP (fun a => (f a).isSome) := by
  induction l with
  | nil => rfl
  | cons a l ih =>
    cases hfa : f a <;> simp [List.filterMap_cons, List.countP_cons, hfa, ih]

theorem ToString_string (h : Host) (s : String) :
    Nan.ToString h (Value.string s) = some s := rfl

theorem Topic_ToStringVector_fold (h : Host) (parameter : List Value) :
    (List.range parameter.length).foldl (Topic.ToStringVectorStep h parameter) []
      = parameter.filterMap (fun v =>
          if v.IsRegExp then some (cStr (Nan.GetSource v))
          else (Nan.ToString h v).map cStr) := by
  induction parameter using List.reverseRecOn with
  | nil => rfl
  | append_singleton l a ih =>
    rw [foldl_range_snoc (Topic.ToStringVectorStep h)
      (by intro l a s i hi; simp only [Topic.ToStringVectorStep, ArrayGet_append_left l a i hi])]
    rw [ih]
    simp only [Topic.ToStringVectorStep, ArrayGet_length, List.filterMap_append]
    cases hre : a.IsRegExp
    · cases hto : Nan.ToString h a <;> simp [List.filterMap_cons, hto, hre]
    · simp [List.filterMap_cons, hre]

/-- The conversion `Topic::ToStringVector` as a filter over the array. -/
theorem Topic_ToStringVector_eq (h : Host) (parameter : List Value) :
    Topic.ToStringVector h parameter
      = parameter.filterMap (fun v =>
          if v.IsRegExp then some (cStr (Nan.GetSource v))
          else (Nan.ToString h v).map cStr) := by
  unfold Topic.ToStringVector
  split
  · exact Topic_ToStringVector_fold h parameter
  · next hlen =>
    have : parameter = [] := by
      cases parameter with
      | nil => rfl
      | cons a l => simp at hlen
    rw [this]; rfl

theorem filterMap_string_cStr (h : Host) (S : List String)
    (hS : ∀ s ∈ S, nulFree s = true) :
    (S.map Value.string).filterMap (fun v => (Nan.ToString h v).map cStr) = S := by
  induction S with
  | nil => rfl
  | cons s S ih =>
    have hs : cStr s = s := cStr_of_nulFree s (hS s (List.mem_cons_self s S))
    have ih1 := ih (fun t ht => hS t (List.mem_cons_of_mem s ht))
    simp only [List.map_cons, List.filterMap_cons, ToString_string, Option.map_some', hs, ih1]

/-- Claim C3 fails as stated: the one-entry sequence holding the three
characters a, NUL, b comes back as the one-character string a, from both
array-to-collection conversions. -/
theorem string_roundtrip_nul_truncates :
    v8ArrayToStringVector exampleHost (Topic.ToV8Array ["a\x00b"]) = ["a"] ∧
    Topic.ToStringVector exampleHost (Topic.ToV8Array ["a\x00b"]) = ["a"] ∧
    ["a"] ≠ ["a\x00b"] := by
  decide

/-- Claim C3, amended: for every sequence of strings none of which contains
a NUL character, converting it with `Topic::ToV8Array` and back with
`v8ArrayToStringVector`, and likewise with `Topic::ToStringVector`, returns
the sequence itself: same length, same order, same strings. -/
theorem string_roundtrip (h : Host) (S : List String)
    (hS : ∀ s ∈ S, nulFree s = true) :
    v8ArrayToStringVector h (Topic.ToV8Array S) = S ∧
    Topic.ToStringVector h (Topic.ToV8Array S) = S := by
  rw [v8ArrayToStringVector_eq, Topic_ToStringVector_eq, Topic_ToV8Array_eq]
  refine ⟨filterMap_string_cStr h S hS, ?_⟩
  have : (S.map Value.string).filterMap (fun v =>
          if v.IsRegExp then some (cStr (Nan.GetSource v))
          else (Nan.ToString h v).map cStr)
      = (S.map Value.string).filterMap (fun v => (Nan.ToString h v).map cStr) := by
    rw [List.filterMap_map, List.filterMap_map]
    rfl
  rw [this]
  exact filterMap_string_cStr h S hS

/-- Claim C3, amended, at three topic names, one of them empty. -/
theorem string_roundtrip_witness :
    (∀ s ∈ ["orders", "", "payments"], nulFree s = true) ∧
    v8ArrayToStringVector exampleHost (Topic.ToV8Array ["orders", "", "payments"])
      = ["orders", "", "payments"] ∧
    Topic.ToStringVector exampleHost (Topic.ToV8Array ["orders", "", "payments"])
      = ["orders", "", "payments"] :=
  ⟨by decide, string_roundtrip exampleHost ["orders", "", "payments"] (by decide)⟩

/-- A filter that reads each string as C text is the plain filter when no
string has a NUL. -/
theorem filterMap_cStr_of_nulFree {α : Type} (f : α → Option String) (l : List α)
    (hl : ∀ a ∈ l, ∀ s, f a = some s → nulFree s = true) :
    l.filterMap (fun a => (f a).map cStr) = l.filterMap f := by
  induction l with
  | nil => rfl
  | cons a l ih =>
    have ih1 := ih (fun b hb => hl b (List.mem_cons_of_mem a hb))
    cases hfa : f a with
    | none => simp only [List.filterMap_cons, hfa, Option.map_none', ih1]
    | some s =>
      have hs : cStr s = s := cStr_of_nulFree s (hl a (List.mem_cons_self a l) s hfa)
      simp only [List.filterMap_cons, hfa, Option.map_some', hs, ih1]

/-- Claim C4 fails as stated: the string of three characters x, NUL, y is
convertible, its string conversion is itself, and the collection holds the
one-character string x instead. -/
theorem v8ArrayToStringVector_truncates :
    [Value.string "x\x00y"].filterMap (Nan.ToString exampleHost) = ["x\x00y"] ∧
    v8ArrayToStringVector exampleHost [Value.string "x\x00y"] = ["x"] ∧
    ["x"] ≠ ["x\x00y"] := by
  decide

/-- Claim C4, amended: `v8ArrayToStringVector` returns, in the original
order, the string conversion, read as C text up to its first NUL, of exactly
the elements that convert to a string, so the string conversions themselves
when none has a NUL; its length is the number of convertible elements; and
when 42 does not convert, the array a, 42, b gives the two strings a, b. -/
theorem v8ArrayToStringVector_skips (h : Host) (parameter : List Value) :
    v8ArrayToStringVector h parameter
        = parameter.filterMap (fun v => (Nan.ToString h v).map cStr) ∧
    (v8ArrayToStringVector h parameter).length
        = parameter.countP (fun v => (Nan.ToString h v).isSome) ∧
    (Nan.ToString h (Value.number 42) = none →
      v8ArrayToStringVector h [Value.string "a", Value.number 42, Value.string "b"]
        = ["a", "b"]) ∧
    ((∀ v ∈ parameter, ∀ s, Nan.ToString h v = some s → nulFree s = true) →
      v8ArrayToStringVector h parameter = parameter.filterMap (Nan.ToString h)) := by
  refine ⟨v8ArrayToStringVector_eq h parameter, ?_, ?_, ?_⟩
  rotate_right
  · intro hfree
    rw [v8ArrayToStringVector_eq]
    exact filterMap_cStr_of_nulFree (Nan.ToString h) parameter hfree
  · rw [v8ArrayToStringVector_eq, length_filterMap_eq_countP]
    congr 1
    funext v
    cases Nan.ToString h v <;> rfl
  · intro h42
    rw [v8ArrayToStringVector_eq]
    have ha : cStr "a" = "a" := by decide
    have hb : cStr "b" = "b" := by decide
    simp only [List.filterMap_cons, h42, ToString_string, Option.map_some', Option.map_none',
      List.filterMap_nil, ha, hb]

/-- Claim C4, amended, at the array a, 42, b in a host where numbers do not
convert. -/
theorem v8ArrayToStringVector_skips_witness :
    Nan.ToString exampleHost (Value.number 42) = none ∧
    v8ArrayToStringVector exampleHost [Value.string "a", Value.number 42, Value.string "b"]
      = ["a", "b"] ∧
    (v8ArrayToStringVector exampleHost
      [Value.string "a", Value.number 42, Value.string "b"]).length = 2 :=
  have t := v8ArrayToStringVector_skips exampleHost
    [Value.string "a", Value.number 42, Value.string "b"]
  ⟨by decide, t.2.2.1 (by decide), by rw [t.2.2.1 (by decide)]; rfl⟩

/-! ## Topic-partition codec -/

/-- Deleting a list of handles leaves every other handle as it was. -/
theorem HandleHeap_foldl_delete_live (l : List Ptr) (heap : HandleHeap) (p : Ptr)
    (hp : p ∉ l) : (l.foldl HandleHeap.delete heap).live p = heap.live p := by
  induction l generalizing heap with
  | nil => rfl
  | cons q l ih =>
    rw [List.foldl_cons, ih _ (fun hmem => hp (List.mem_cons_of_mem q hmem))]
    have hne : p ≠ q := fun heq => hp (heq ▸ List.mem_cons_self q l)
    simp [HandleHeap.delete, hne]

/-- Deleting a list of handles leaves none of them alive. -/
theorem HandleHeap_foldl_delete_dead (l : List Ptr) (heap : HandleHeap) (p : Ptr)
    (hp : p ∈ l) : (l.foldl HandleHeap.delete heap).live p = none := by
  induction l using List.reverseRecOn with
  | nil => simp at hp
  | append_singleton l q ih =>
    rw [List.foldl_append, List.foldl_cons, List.foldl_nil]
    by_cases hq : p = q
    · simp [HandleHeap.delete, hq]
    · have hmem : p ∈ l := by
        rcases List.mem_append.mp hp with h1 | h1
        · exact h1
        · simp at h1; exact absurd h1 hq
      simp [HandleHeap.delete, hq, ih hmem]

/-- Deleting a list of handles records them in order, once each. -/
theorem HandleHeap_foldl_delete_deleted (l : List Ptr) (heap : HandleHeap) :
    (l.foldl HandleHeap.delete heap).deleted = heap.deleted ++ l := by
  induction l generalizing heap with
  | nil => simp
  | cons q l ih =>
    rw [List.foldl_cons, ih]
    simp [HandleHeap.delete]

theorem length_filterMap_of_isSome {α β : Type} (f : α → Option β) (l : List α)
    (hf : ∀ a ∈ l, (f a).isSome = true) : (l.filterMap f).length = l.length := by
  rw [length_filterMap_eq_countP, List.countP_eq_length]
  exact hf

theorem TopicPartition_ToV8Array_fold (heap : HandleHeap) (l : List Ptr)
    (hlive : ∀ p ∈ l, (heap.live p).isSome = true) (hnodup : l.Nodup) :
    (List.range l.length).foldl (TopicPartition.ToV8ArrayStep l) (some ([], heap))
      = some (l.filterMap (fun p => (heap.live p).map
            (fun tp => Value.object (TopicPartition.ToV8ArrayRecord tp))),
          l.foldl HandleHeap.delete heap) := by
  induction l using List.reverseRecOn with
  | nil => rfl
  | append_singleton l p ih =>
    rw [foldl_range_snoc TopicPartition.ToV8ArrayStep
      (by intro l a s i hi
          simp only [TopicPartition.ToV8ArrayStep, List.getElem?_append_left hi])]
    have hnd := List.nodup_append.mp hnodup
    have hpl : p ∉ l := fun hmem => hnd.2.2 hmem (List.mem_singleton_self p) 
    have hl : ∀ q ∈ l, (heap.live q).isSome = true :=
      fun q hq => hlive q (List.mem_append_left _ hq)
    rw [ih hl hnd.1]
    obtain ⟨tp, htp⟩ := Option.isSome_iff_exists.mp
      (hlive p (List.mem_append_right _ (List.mem_singleton_self p)))
    simp only [TopicPartition.ToV8ArrayStep, List.getElem?_concat_length,
      HandleHeap_foldl_delete_live l heap p hpl, htp, List.filterMap_append,
      List.filterMap_cons, List.filterMap_nil, Option.map_some', List.foldl_append,
      List.foldl_cons, List.foldl_nil]
    have hlen : l.length = (l.filterMap (fun p => (heap.live p).map
            (fun tp => Value.object (TopicPartition.ToV8ArrayRecord tp)))).length := by
      rw [length_filterMap_of_isSome]
      intro q hq
      obtain ⟨tq, htq⟩ := Option.isSome_iff_exists.mp (hl q hq)
      simp [htq]
    conv => lhs; rw [hlen]
    rw [ArraySet_length]
/-- An integer up to 2^53 in absolute value is a double. -/
theorem toDouble_of_natAbs_le (x : Int) (hx : x.natAbs ≤ 2 ^ 53) : toDouble x = x := by
  unfold toDouble
  rw [if_pos hx]

/-- The record of one handle, field by field. -/
theorem ToV8ArrayRecord_eq (tp : RdKafka.TopicPartition) :
    TopicPartition.ToV8ArrayRecord tp
      = (if tp.offset = RdKafka.OFFSET_INVALID then []
          else [("offset", Value.number (toDouble tp.offset))])
        ++ [("partition", Value.number tp.partition), ("topic", Value.string tp.topic.val)] := by
  unfold TopicPartition.ToV8ArrayRecord
  rw [cStr_of_nulFree tp.topic.val tp.topic.property]
  by_cases hoff : tp.offset = RdKafka.OFFSET_INVALID
  · simp [hoff, Nan.Set]
  · simp [hoff, Nan.Set]

/-- The conversion `TopicPartition::ToV8Array` on live, distinct handles: one
record per handle, every handle deleted, the vector cleared. -/
theorem TopicPartition_ToV8Array_eq (heap : HandleHeap) (l : List Ptr)
    (hlive : ∀ p ∈ l, (heap.live p).isSome = true) (hnodup : l.Nodup) :
    TopicPartition.ToV8Array heap l
      = some (l.filterMap (fun p => (heap.live p).map
            (fun tp => Value.object (TopicPartition.ToV8ArrayRecord tp))),
          l.foldl HandleHeap.delete heap, []) := by
  unfold TopicPartition.ToV8Array
  rw [TopicPartition_ToV8Array_fold heap l hlive hnodup]

theorem getElem?_filterMap_of_isSome {α β : Type} (f : α → Option β) (l : List α)
    (hf : ∀ a ∈ l, (f a).isSome = true) (i : Nat) (a : α) (hi : l[i]? = some a) :
    (l.filterMap f)[i]? = f a := by
  induction l generalizing i with
  | nil => simp at hi
  | cons b l ih =>
    obtain ⟨c, hc⟩ := Option.isSome_iff_exists.mp (hf b (List.mem_cons_self b l))
    cases i with
    | zero =>
      simp at hi
      subst hi
      simp [List.filterMap_cons, hc]
    | succ i =>
      simp at hi
      simp only [List.filterMap_cons, hc, List.getElem?_cons_succ]
      exact ih (fun a ha => hf a (List.mem_cons_of_mem b ha)) i hi

/-- Claim C5 fails as stated: for a handle with the offset 2^53 + 1 the
record has the offset 2^53, the nearest double. -/
theorem TopicPartition_offset_rounds :
    roundingHandles.live 1
      = some { topic := ⟨"t", by decide⟩, partition := 0, offset := 9007199254740993 } ∧
    (TopicPartition.ToV8Array roundingHandles [1]).map (fun r => r.1)
      = some [Value.object [("offset", Value.number 9007199254740992),
                ("partition", Value.number 0), ("topic", Value.string "t")]] ∧
    (9007199254740992 : Int) ≠ 9007199254740993 :=
  ⟨rfl, rfl, by decide⟩

/-- Claim C5, amended: for every handle of the input, the record at its index
has `partition` and `topic` equal to the handle's, has an `offset` field
exactly when the handle's offset is not the sentinel, with the handle's
offset converted to a double as its value, which is the offset itself when
it is at most 2^53 in absolute value, and when the offset is the sentinel
the record has the fields `partition` and `topic` only. -/
theorem TopicPartition_record_fields (heap : HandleHeap) (topic_partition_list : List Ptr)
    (hlive : ∀ p ∈ topic_partition_list, (heap.live p).isSome = true)
    (hnodup : topic_partition_list.Nodup) :
    ∃ array heap1, TopicPartition.ToV8Array heap topic_partition_list = some (array, heap1, []) ∧
      ∀ (i : Nat) (p : Ptr) (tp : RdKafka.TopicPartition),
        topic_partition_list[i]? = some p → heap.live p = some tp →
        ∃ fields, array[i]? = some (Value.object fields) ∧
          Record.get fields "partition" = Value.number tp.partition ∧
          Record.get fields "topic" = Value.string tp.topic.val ∧
          (Record.has fields "offset" = true ↔ tp.offset ≠ RdKafka.OFFSET_INVALID) ∧
          (tp.offset ≠ RdKafka.OFFSET_INVALID →
            Record.get fields "offset" = Value.number (toDouble tp.offset)) ∧
          (tp.offset ≠ RdKafka.OFFSET_INVALID → tp.offset.natAbs ≤ 2 ^ 53 →
            Record.get fields "offset" = Value.number tp.offset) ∧
          (tp.offset = RdKafka.OFFSET_INVALID →
            fields.map Prod.fst = ["partition", "topic"]) := by
  refine ⟨_, _, TopicPartition_ToV8Array_eq heap topic_partition_list hlive hnodup, ?_⟩
  intro i p tp hi hp
  refine ⟨TopicPartition.ToV8ArrayRecord tp, ?_, ?_⟩
  · rw [getElem?_filterMap_of_isSome _ topic_partition_list _ i p hi]
    · simp [hp]
    · intro q hq
      obtain ⟨tq, htq⟩ := Option.isSome_iff_exists.mp (hlive q hq)
      simp [htq]
  · rw [ToV8ArrayRecord_eq]
    by_cases hoff : tp.offset = RdKafka.OFFSET_INVALID
    · simp [hoff, Record.get, Record.has]
    · rw [if_neg hoff]
      refine ⟨rfl, rfl, ?_, ?_, ?_, ?_⟩
      · constructor
        · intro _; exact hoff
        · intro _; rfl
      · intro _; rfl
      · intro _ hsmall
        have hget : Record.get
            ([("offset", Value.number (toDouble tp.offset))] ++
              [("partition", Value.number tp.partition), ("topic", Value.string tp.topic.val)])
            "offset" = Value.number (toDouble tp.offset) := rfl
        rw [hget, toDouble_of_natAbs_le tp.offset hsmall]
      · intro habs; exact absurd habs hoff

/-- Claim C6: on a collection of n handles the result is an array of n
records, the i-th built from the i-th handle, and the collection has length
0 after the call. -/
theorem TopicPartition_ToV8Array_destructive (heap : HandleHeap)
    (topic_partition_list : List Ptr) (handles : List RdKafka.TopicPartition)
    (hhandles : topic_partition_list.map heap.live = handles.map some)
    (hnodup : topic_partition_list.Nodup) :
    ∃ array heap1 list1,
      TopicPartition.ToV8Array heap topic_partition_list = some (array, heap1, list1) ∧
      array = handles.map (fun tp => Value.object (TopicPartition.ToV8ArrayRecord tp)) ∧
      array.length = topic_partition_list.length ∧
      list1.length = 0 := by
  have hlive : ∀ p ∈ topic_partition_list, (heap.live p).isSome = true := by
    intro p hp
    have hmem : heap.live p ∈ topic_partition_list.map heap.live := List.mem_map_of_mem _ hp
    rw [hhandles] at hmem
    obtain ⟨tp, _, htp⟩ := List.mem_map.mp hmem
    rw [← htp]; rfl
  have harr : topic_partition_list.filterMap (fun p => (heap.live p).map
            (fun tp => Value.object (TopicPartition.ToV8ArrayRecord tp)))
      = handles.map (fun tp => Value.object (TopicPartition.ToV8ArrayRecord tp)) := by
    have h1 : topic_partition_list.filterMap (fun p => (heap.live p).map
            (fun tp => Value.object (TopicPartition.ToV8ArrayRecord tp)))
        = (topic_partition_list.map heap.live).filterMap
            (Option.map (fun tp => Value.object (TopicPartition.ToV8ArrayRecord tp))) := by
      rw [List.filterMap_map]; rfl
    rw [h1, hhandles, List.filterMap_map]
    induction handles with
    | nil => rfl
    | cons a l ih => simp [List.filterMap_cons]
  have hlen : handles.length = topic_partition_list.length := by
    have := congrArg List.length hhandles
    simpa using this.symm
  refine ⟨_, _, _, TopicPartition_ToV8Array_eq heap topic_partition_list hlive hnodup,
    harr, ?_, rfl⟩
  rw [harr, List.length_map, hlen]

/-- Claim C5, amended, at three handles with the offsets 17, 0 and the
sentinel. -/
theorem TopicPartition_record_fields_witness :
    (∀ p ∈ [1, 2, 3], (exampleHandles.live p).isSome = true) ∧ [1, 2, 3].Nodup ∧
    (TopicPartition.ToV8Array exampleHandles [1, 2, 3]).map (fun r => r.1)
      = some [Value.object [("offset", Value.number 17), ("partition", Value.number 0),
                ("topic", Value.string "t")],
              Value.object [("offset", Value.number 0), ("partition", Value.number 1),
                ("topic", Value.string "t")],
              Value.object [("partition", Value.number 2), ("topic", Value.string "u")]] ∧
    ∃ array heap1, TopicPartition.ToV8Array exampleHandles [1, 2, 3] = some (array, heap1, []) ∧
      ∀ (i : Nat) (p : Ptr) (tp : RdKafka.TopicPartition),
        [1, 2, 3][i]? = some p → exampleHandles.live p = some tp →
        ∃ fields, array[i]? = some (Value.object fields) ∧
          Record.get fields "partition" = Value.number tp.partition ∧
          Record.get fields "topic" = Value.string tp.topic.val ∧
          (Record.has fields "offset" = true ↔ tp.offset ≠ RdKafka.OFFSET_INVALID) ∧
          (tp.offset ≠ RdKafka.OFFSET_INVALID →
            Record.get fields "offset" = Value.number (toDouble tp.offset)) ∧
          (tp.offset ≠ RdKafka.OFFSET_INVALID → tp.offset.natAbs ≤ 2 ^ 53 →
            Record.get fields "offset" = Value.number tp.offset) ∧
          (tp.offset = RdKafka.OFFSET_INVALID →
            fields.map Prod.fst = ["partition", "topic"]) :=
  ⟨by decide, by decide, rfl,
    TopicPartition_record_fields exampleHandles [1, 2, 3] (by decide) (by decide)⟩

/-- Claim C6 at three handles: three records, in order, and an empty
collection. -/
theorem TopicPartition_ToV8Array_destructive_witness :
    ∃ array heap1 list1,
      TopicPartition.ToV8Array exampleHandles [1, 2, 3] = some (array, heap1, list1) ∧
      array = [Value.object [("offset", Value.number 17), ("partition", Value.number 0),
                 ("topic", Value.string "t")],
               Value.object [("offset", Value.number 0), ("partition", Value.number 1),
                 ("topic", Value.string "t")],
               Value.object [("partition", Value.number 2), ("topic", Value.string "u")]] ∧
      array.length = 3 ∧
      list1.length = 0 :=
  TopicPartition_ToV8Array_destructive exampleHandles [1, 2, 3]
    [{ topic := ⟨"t", by decide⟩, partition := 0, offset := 17 },
     { topic := ⟨"t", by decide⟩, partition := 1, offset := 0 },
     { topic := ⟨"u", by decide⟩, partition := 2, offset := RdKafka.OFFSET_INVALID }]
    rfl (by decide)

/-! ## Metadata tree builder -/

theorem SetEach_fold {α : Type} (f : α → Value) (xs : List α) (array : List Value) :
    xs.foldl (fun (st : List Value × Nat) x => (Nan.ArraySet st.1 st.2 (f x), st.2 + 1))
      (array, array.length) = (array ++ xs.map f, array.length + xs.length) := by
  induction xs generalizing array with
  | nil => simp
  | cons x xs ih =>
    rw [List.foldl_cons]
    simp only [ArraySet_length]
    have hlen : array.length + 1 = (array ++ [f x]).length := by simp
    rw [hlen, ih]
    simp
    omega

/-- An iterator loop that stores one value per entry is a map. -/
theorem SetEach_eq_map {α : Type} (f : α → Value) (xs : List α) :
    Nan.SetEach f xs = xs.map f := by
  unfold Nan.SetEach
  have := SetEach_fold f xs []
  simp only [List.length_nil, List.nil_append] at this
  rw [this]

/-- Claim C7: the metadata object has exactly the fields `orig_broker_id`,
`orig_broker_name`, `topics` and `brokers`; brokers, topics, partitions,
replicas and isrs are the snapshot's sequences entry for entry, in order. -/
theorem Metadata_ToV8Object_shape (metadata : RdKafka.Metadata) :
    Metadata.ToV8Object metadata = Value.object
      [("orig_broker_id", Value.number metadata.orig_broker_id),
       ("orig_broker_name", Value.string metadata.orig_broker_name),
       ("topics", Value.array (metadata.topics.map (fun t => Value.object
          [("name", Value.string t.topic.val),
           ("partitions", Value.array (t.partitions.map (fun p => Value.object
              [("id", Value.number p.id),
               ("leader", Value.number p.leader),
               ("replicas", Value.array (p.replicas.map Value.number)),
               ("isrs", Value.array (p.isrs.map Value.number))])))]))),
       ("brokers", Value.array (metadata.brokers.map (fun b => Value.object
          [("id", Value.number b.id),
           ("host", Value.string b.host.val),
           ("port", Value.number b.port)])))] := by
  have hbroker : Metadata.ToV8ObjectBroker = fun b => Value.object
          [("id", Value.number b.id),
           ("host", Value.string b.host.val),
           ("port", Value.number b.port)] := by
    funext b
    unfold Metadata.ToV8ObjectBroker
    rw [cStr_of_nulFree b.host.val b.host.property]
    simp [Nan.Set]
  have hpartition : Metadata.ToV8ObjectPartition = fun p => Value.object
              [("id", Value.number p.id),
               ("leader", Value.number p.leader),
               ("replicas", Value.array (p.replicas.map Value.number)),
               ("isrs", Value.array (p.isrs.map Value.number))] := by
    funext p
    unfold Metadata.ToV8ObjectPartition
    simp [Nan.Set, SetEach_eq_map]
  have htopic : Metadata.ToV8ObjectTopic = fun t => Value.object
          [("name", Value.string t.topic.val),
           ("partitions", Value.array (t.partitions.map (fun p => Value.object
              [("id", Value.number p.id),
               ("leader", Value.number p.leader),
               ("replicas", Value.array (p.replicas.map Value.number)),
               ("isrs", Value.array (p.isrs.map Value.number))])))] := by
    funext t
    unfold Metadata.ToV8ObjectTopic
    rw [cStr_of_nulFree t.topic.val t.topic.property, SetEach_eq_map, hpartition]
    simp [Nan.Set]
  unfold Metadata.ToV8Object
  rw [SetEach_eq_map, SetEach_eq_map, hbroker, htopic]
  simp [Nan.Set]

/-- Claim C7 at one broker and one topic with two partitions, the second
with no in-sync replica. -/
theorem Metadata_ToV8Object_shape_witness :
    Metadata.ToV8Object exampleMetadata = Value.object
      [("orig_broker_id", Value.number 1),
       ("orig_broker_name", Value.string "b1"),
       ("topics", Value.array [Value.object
          [("name", Value.string "t"),
           ("partitions", Value.array
             [Value.object [("id", Value.number 0), ("leader", Value.number 1),
                ("replicas", Value.array [Value.number 1]),
                ("isrs", Value.array [Value.number 1])],
              Value.object [("id", Value.number 1), ("leader", Value.number 1),
                ("replicas", Value.array [Value.number 1]),
                ("isrs", Value.array [])]])]]),
       ("brokers", Value.array [Value.object
          [("id", Value.number 1), ("host", Value.string "h"), ("port", Value.number 9092)]])] :=
  Metadata_ToV8Object_shape exampleMetadata

/-! ## Message codec -/

/-- A length cast to `int` and taken as `uint32_t` is the length modulo 2^32. -/
theorem toUInt32_toInt32 (n : Nat) : toUInt32 (toInt32 n) = n % 2 ^ 32 := by
  unfold toUInt32 toInt32
  have h31 : (2 : Int) ^ 31 = 2147483648 := by norm_num
  have h32 : (2 : Int) ^ 32 = 4294967296 := by norm_num
  have h32n : (2 : Nat) ^ 32 = 4294967296 := by norm_num
  rw [h31, h32, h32n]
  have key : (((n : Int) + 2147483648) % 4294967296 - 2147483648) % 4294967296
      = (n : Int) % 4294967296 := by
    omega
  rw [key]
  omega

theorem Memory_le_foldr_max (ks : List Ptr) (p : Ptr) (hp : p ∈ ks) :
    p ≤ ks.foldr max 0 := by
  induction ks with
  | nil => simp at hp
  | cons k ks ih =>
    rw [List.foldr_cons]
    rcases List.mem_cons.mp hp with h1 | h1
    · rw [h1]; exact Nat.le_max_left _ _
    · exact Nat.le_trans (ih h1) (Nat.le_max_right _ _)

theorem Memory_fresh_not_key (m : Memory) (b : Ptr × List UInt8) (hb : b ∈ m.blocks) :
    b.1 ≠ m.fresh := by
  have hle := Memory_le_foldr_max (m.blocks.map Prod.fst) b.1 (List.mem_map_of_mem _ hb)
  intro heq
  rw [heq] at hle
  unfold Memory.fresh at hle
  exact Nat.not_succ_le_self _ hle

/-- No block is allocated at the fresh address. -/
theorem Memory_read_fresh (m : Memory) : m.read m.fresh = none := by
  unfold Memory.read
  rw [List.lookup_eq_none_iff]
  intro b hb
  have := Memory_fresh_not_key m b hb
  simpa using fun h => this h.symm

theorem Memory_read_ne_fresh (m : Memory) (p : Ptr) (bs : List UInt8)
    (hp : m.read p = some bs) : p ≠ m.fresh := by
  intro heq
  rw [heq, Memory_read_fresh] at hp
  cases hp

/-- After `malloc(n)` the new block has `n` bytes. -/
theorem Memory_read_malloc_fresh (m : Memory) (n : Nat) :
    (m.malloc n).2.read (m.malloc n).1 = some (List.replicate n 0) := by
  have hnone := Memory_read_fresh m
  unfold Memory.read at hnone
  simp only [Memory.malloc, Memory.read, List.lookup_append, hnone]
  simp [List.lookup]

/-- The call `malloc` leaves every allocated block as it was. -/
theorem Memory_read_malloc_old (m : Memory) (n : Nat) (p : Ptr) (bs : List UInt8)
    (hp : m.read p = some bs) : (m.malloc n).2.read p = some bs := by
  unfold Memory.read at hp
  simp only [Memory.malloc, Memory.read, List.lookup_append, hp]
  rfl

theorem lookup_map_replace (l : List (Ptr × List UInt8)) (p q : Ptr) (bs : List UInt8) :
    (l.map (fun b => if b.1 == p then (b.1, bs) else b)).lookup q
      = if q = p then (l.lookup q).map (fun _ => bs) else l.lookup q := by
  induction l with
  | nil => simp
  | cons b l ih =>
    obtain ⟨k, v⟩ := b
    by_cases hqk : q = k
    · subst hqk
      by_cases hqp : q = p
      · simp [hqp]
      · simp [hqp]
    · have hbeq : (q == k) = false := by simp [hqk]
      by_cases hkp : k = p
      · have hkp1 : (k == p) = true := by simp [hkp]
        simp only [List.map_cons, hkp1, if_true]
        rw [List.lookup_cons, List.lookup_cons, hbeq]
        exact ih
      · have hkp1 : (k == p) = false := by simp [hkp]
        simp only [List.map_cons, hkp1]
        rw [List.lookup_cons, List.lookup_cons]
        simp only [Bool.false_eq_true, if_false, hbeq]
        exact ih

/-- Writing a block changes that block only. -/
theorem Memory_read_write (m : Memory) (p q : Ptr) (bs : List UInt8) :
    (m.write p bs).read q = if q = p then (m.read q).map (fun _ => bs) else m.read q := by
  unfold Memory.write Memory.read
  exact lookup_map_replace m.blocks p q bs

/-- Allocating `n` bytes and copying `n` readable bytes into them gives a
new block with exactly these bytes and leaves every other block as it was. -/
theorem Memory_malloc_memcpy (mem : Memory) (src : Ptr) (n : Nat) (bytes : List UInt8)
    (hpayload : mem.readBytes src n = some bytes) :
    ∃ mem2, (mem.malloc n).2.memcpy (mem.malloc n).1 src n = some mem2 ∧
      mem2.read mem.fresh = some bytes ∧ bytes.length = n ∧
      ∀ p bs, mem.read p = some bs → mem2.read p = some bs := by
  have hfresh : (mem.malloc n).1 = mem.fresh := rfl
  by_cases hn : n = 0
  · subst hn
    simp only [Memory.readBytes, if_true, Option.some.injEq] at hpayload
    subst hpayload
    refine ⟨(mem.malloc 0).2, by simp [Memory.memcpy], ?_, rfl, ?_⟩
    · have := Memory_read_malloc_fresh mem 0
      rw [hfresh] at this
      simpa using this
    · intro p bs hp
      exact Memory_read_malloc_old mem 0 p bs hp
  · simp only [Memory.readBytes, hn, if_false] at hpayload
    cases hs : mem.read src with
    | none => rw [hs] at hpayload; cases hpayload
    | some s =>
      rw [hs] at hpayload
      simp only at hpayload
      by_cases hle : n ≤ s.length
      · simp only [hle, if_true, Option.some.injEq] at hpayload
        have hsrc := Memory_read_malloc_old mem n src s hs
        have hdst := Memory_read_malloc_fresh mem n
        refine ⟨(mem.malloc n).2.write (mem.malloc n).1
          (s.take n ++ (List.replicate n (0 : UInt8)).drop n), ?_, ?_, ?_, ?_⟩
        · simp only [Memory.memcpy, hn, if_false, hsrc, hdst, List.length_replicate, hle,
            le_refl, and_self, if_true]
        · rw [Memory_read_write, hfresh, if_pos rfl, ← hfresh, hdst]
          simp [← hpayload]
        · rw [← hpayload]
          simp [hle]
        · intro p bs hp
          rw [Memory_read_write, hfresh, if_neg (Memory_read_ne_fresh mem p bs hp)]
          exact Memory_read_malloc_old mem n p bs hp
      · simp only [hle, if_false] at hpayload
        cases hpayload

/-- A length up to 2^53 is a double. -/
theorem toDouble_natCast (n : Nat) (hn : n ≤ 2 ^ 53) : toDouble (n : Int) = (n : Int) := by
  apply toDouble_of_natAbs_le
  rw [Int.natAbs_ofNat]
  exact hn

/-- The conversion `Message::ToV8Object` on a message without error whose
payload is readable and whose buffer the host can make: the object built,
field by field, and the memory after the call. -/
theorem Message_ToV8Object_ok (h : Host) (RdKafkaError : Int → Value) (mem : Memory)
    (message : RdKafka.Message) (bytes : List UInt8)
    (herr : message.err = RdKafka.ERR_NO_ERROR)
    (hpayload : mem.readBytes message.payload message.len = some bytes)
    (hlimit : message.len % 2 ^ 32 ≤ h.kMaxLength) :
    ∃ mem2, Message.ToV8Object h RdKafkaError mem message
        = some (Value.object
            [("value", Value.buffer mem.fresh (message.len % 2 ^ 32)),
             ("size", Value.number (toDouble message.len)),
             ("key", match message.key with
                | some key => Value.string key
                | none => Value.null),
             ("topic", Value.string message.topic_name),
             ("offset", Value.number (toDouble message.offset)),
             ("partition", Value.number message.partition)], mem2) ∧
      mem2.read mem.fresh = some bytes ∧ bytes.length = message.len ∧
      ∀ p bs, mem.read p = some bs → mem2.read p = some bs := by
  obtain ⟨mem2, hcopy, hread, hlen, hframe⟩ :=
    Memory_malloc_memcpy mem message.payload message.len bytes hpayload
  refine ⟨mem2, ?_, hread, hlen, hframe⟩
  have hfresh : (mem.malloc message.len).1 = mem.fresh := rfl
  have hbuf : Nan.NewBuffer h (mem.malloc message.len).1 (toInt32 message.len)
      = some (Value.buffer mem.fresh (message.len % 2 ^ 32)) := by
    unfold Nan.NewBuffer
    rw [toUInt32_toInt32, if_pos hlimit, hfresh]
  unfold Message.ToV8Object
  rw [if_pos herr]
  show (match (mem.malloc message.len).2.memcpy (mem.malloc message.len).1
      message.payload message.len with
    | none => none
    | some mem2 =>
      match Nan.NewBuffer h (mem.malloc message.len).1 (toInt32 message.len) with
      | none => none
      | some buff => some (Value.object (Message.ToV8ObjectPack message buff), mem2)) = _
  rw [hcopy, hbuf]
  show some (Value.object (Message.ToV8ObjectPack message
    (Value.buffer mem.fresh (message.len % 2 ^ 32))), mem2) = _
  unfold Message.ToV8ObjectPack
  generalize toDouble (message.len : Int) = size
  generalize toDouble message.offset = offset
  cases message.key <;> rfl

/-- The conversion `Message::ToV8Object` on a message without error whose
buffer is larger than the host can make: the call aborts. -/
theorem Message_ToV8Object_abort (h : Host) (RdKafkaError : Int → Value) (mem : Memory)
    (message : RdKafka.Message)
    (herr : message.err = RdKafka.ERR_NO_ERROR)
    (hlimit : h.kMaxLength < message.len % 2 ^ 32) :
    Message.ToV8Object h RdKafkaError mem message = none := by
  have hbuf : Nan.NewBuffer h (mem.malloc message.len).1 (toInt32 message.len) = none := by
    unfold Nan.NewBuffer
    rw [toUInt32_toInt32, if_neg (Nat.not_le.mpr hlimit)]
  unfold Message.ToV8Object
  rw [if_pos herr]
  show (match (mem.malloc message.len).2.memcpy (mem.malloc message.len).1
      message.payload message.len with
    | none => none
    | some mem2 =>
      match Nan.NewBuffer h (mem.malloc message.len).1 (toInt32 message.len) with
      | none => none
      | some buff => some (Value.object (Message.ToV8ObjectPack message buff), mem2)) = _
  rw [hbuf]
  cases (mem.malloc message.len).2.memcpy (mem.malloc message.len).1 message.payload
    message.len <;> rfl

/-- The field `value` of the object of a message. -/
theorem Message_value_field (p : Ptr) (n : Nat) (size key topic offset partition : Value) :
    Record.get
      [("value", Value.buffer p n), ("size", size), ("key", key), ("topic", topic),
       ("offset", offset), ("partition", partition)] "value" = Value.buffer p n := rfl

/-- Claim C8, amended: for a message without error whose payload length is
below 2^32 and not above the largest buffer of the host, the bytes of
`value` are the payload bytes (same length, same bytes in order), `size` is
the payload length, `topic` and `partition` are the handle's, `offset` is
the handle's offset converted to a double, which is the offset itself when
it is at most 2^53 in absolute value, and `key` is the handle's key when it
has one. -/
theorem Message_ToV8Object_payload (h : Host) (RdKafkaError : Int → Value) (mem : Memory)
    (message : RdKafka.Message) (bytes : List UInt8)
    (herr : message.err = RdKafka.ERR_NO_ERROR)
    (hpayload : mem.readBytes message.payload message.len = some bytes)
    (hlen : message.len < 2 ^ 32)
    (hlimit : message.len ≤ h.kMaxLength) :
    ∃ pack mem1,
      Message.ToV8Object h RdKafkaError mem message = some (Value.object pack, mem1) ∧
      mem1.bufferBytes (Record.get pack "value") = some bytes ∧
      bytes.length = message.len ∧
      Record.get pack "size" = Value.number message.len ∧
      Record.get pack "topic" = Value.string message.topic_name ∧
      Record.get pack "offset" = Value.number (toDouble message.offset) ∧
      (message.offset.natAbs ≤ 2 ^ 53 →
        Record.get pack "offset" = Value.number message.offset) ∧
      Record.get pack "partition" = Value.number message.partition ∧
      (∀ key, message.key = some key → Record.get pack "key" = Value.string key) := by
  have hmod : message.len % 2 ^ 32 = message.len := Nat.mod_eq_of_lt hlen
  obtain ⟨mem2, hres, hread, hblen, _⟩ :=
    Message_ToV8Object_ok h RdKafkaError mem message bytes herr hpayload
      (by rw [hmod]; exact hlimit)
  have hsize : toDouble (message.len : Int) = (message.len : Int) :=
    toDouble_natCast message.len (Nat.le_of_lt (Nat.lt_of_lt_of_le hlen (by norm_num)))
  have hoffset : Record.get
      [("value", Value.buffer mem.fresh (message.len % 2 ^ 32)),
       ("size", Value.number (toDouble message.len)),
       ("key", match message.key with
          | some key => Value.string key
          | none => Value.null),
       ("topic", Value.string message.topic_name),
       ("offset", Value.number (toDouble message.offset)),
       ("partition", Value.number message.partition)] "offset"
      = Value.number (toDouble message.offset) := rfl
  refine ⟨_, mem2, hres, ?_, hblen, ?_, rfl, hoffset, ?_, rfl, ?_⟩
  · rw [Message_value_field, hmod]
    simp only [Memory.bufferBytes, hread, Option.map_some']
    rw [← hblen, List.take_length]
  · have hget : Record.get
        [("value", Value.buffer mem.fresh (message.len % 2 ^ 32)),
         ("size", Value.number (toDouble message.len)),
         ("key", match message.key with
            | some key => Value.string key
            | none => Value.null),
         ("topic", Value.string message.topic_name),
         ("offset", Value.number (toDouble message.offset)),
         ("partition", Value.number message.partition)] "size"
        = Value.number (toDouble message.len) := rfl
    rw [hget, hsize]
  · intro hsmall
    rw [hoffset, toDouble_of_natAbs_le message.offset hsmall]
  · intro key hkey
    simp only [hkey]
    rfl

/-- Claim C8, amended, at the payload 1, 2, 3 with key k, topic t, offset 5
and partition 0. -/
theorem Message_ToV8Object_payload_witness :
    exampleMessage.err = RdKafka.ERR_NO_ERROR ∧
    exampleMemory.readBytes exampleMessage.payload exampleMessage.len = some [1, 2, 3] ∧
    exampleMessage.len < 2 ^ 32 ∧
    exampleMessage.len ≤ exampleHost.kMaxLength ∧
    ∃ pack mem1,
      Message.ToV8Object exampleHost exampleError exampleMemory exampleMessage
        = some (Value.object pack, mem1) ∧
      mem1.bufferBytes (Record.get pack "value") = some [1, 2, 3] ∧
      [(1 : UInt8), 2, 3].length = exampleMessage.len ∧
      Record.get pack "size" = Value.number 3 ∧
      Record.get pack "topic" = Value.string "t" ∧
      Record.get pack "offset" = Value.number 5 ∧
      (exampleMessage.offset.natAbs ≤ 2 ^ 53 → Record.get pack "offset" = Value.number 5) ∧
      Record.get pack "partition" = Value.number 0 ∧
      (∀ key, exampleMessage.key = some key → Record.get pack "key" = Value.string key) :=
  ⟨rfl, by decide, by decide, by decide,
    Message_ToV8Object_payload exampleHost exampleError exampleMemory exampleMessage [1, 2, 3]
      rfl (by decide) (by decide) (by decide)⟩

theorem Memory_readBytes_block (p : Ptr) (block : List UInt8) (n : Nat)
    (hn : block.length = n) :
    Memory.readBytes { blocks := [(p, block)] } p n = some block := by
  subst hn
  unfold Memory.readBytes
  split
  · next h0 => rw [List.length_eq_zero.mp h0]
  · have hread : Memory.read { blocks := [(p, block)] } p = some block := by
      simp [Memory.read, List.lookup]
    rw [hread]
    simp

/-- Claim C8 fails as stated, in three ways.  The offset 2^53 + 1 comes back
as 2^53, the nearest double.  For a payload of 2^32 bytes the length cast to
`int` is 0, so `value` has no byte while the payload has 2^32 bytes.  And
for a payload of 2^30 bytes on a host whose largest buffer has 2^30 - 1
bytes the call aborts: no object is returned. -/
theorem Message_ToV8Object_payload_cut :
    (∃ pack mem1,
      Message.ToV8Object exampleHost exampleError exampleMemory
          { exampleMessage with offset := 9007199254740993 }
        = some (Value.object pack, mem1) ∧
      Record.get pack "offset" = Value.number 9007199254740992 ∧
      (9007199254740992 : Int) ≠ 9007199254740993) ∧
    (bigMemory.readBytes bigMessage.payload bigMessage.len
        = some (List.replicate bigLength 0) ∧
      ∃ pack mem1,
        Message.ToV8Object exampleHost exampleError bigMemory bigMessage
          = some (Value.object pack, mem1) ∧
        mem1.bufferBytes (Record.get pack "value") = some [] ∧
        ([] : List UInt8).length ≠ (List.replicate bigLength (0 : UInt8)).length) ∧
    (overLimitMemory.readBytes overLimitMessage.payload overLimitMessage.len
        = some (List.replicate overLimitLength 0) ∧
      Message.ToV8Object exampleHost exampleError overLimitMemory overLimitMessage = none) := by
  refine ⟨?_, ?_, ?_⟩
  · obtain ⟨mem2, hres, _, _, _⟩ :=
      Message_ToV8Object_ok exampleHost exampleError exampleMemory
        { exampleMessage with offset := 9007199254740993 } [1, 2, 3] rfl (by decide)
        (by decide)
    exact ⟨_, mem2, hres, rfl, by decide⟩
  · have hpayload : bigMemory.readBytes bigMessage.payload bigMessage.len
        = some (List.replicate bigLength 0) :=
      Memory_readBytes_block 1 (List.replicate bigLength 0) bigLength
        (List.length_replicate _ _)
    obtain ⟨mem2, hres, hread, _, _⟩ :=
      Message_ToV8Object_ok exampleHost exampleError bigMemory bigMessage _ rfl hpayload
        (by decide)
    refine ⟨hpayload, _, mem2, hres, ?_, ?_⟩
    · rw [Message_value_field]
      have hmod : bigMessage.len % 2 ^ 32 = 0 := by decide
      rw [hmod]
      simp only [Memory.bufferBytes, hread, Option.map_some', List.take_zero]
    · rw [List.length_replicate]
      decide
  · exact ⟨Memory_readBytes_block 1 (List.replicate overLimitLength 0) overLimitLength
        (List.length_replicate _ _),
      Message_ToV8Object_abort exampleHost exampleError overLimitMemory overLimitMessage rfl
        (by decide)⟩

/-- Claim C9: the object of a message without error always has the field
`key`; it is the handle's key string when the handle has a key, whatever
the string, and it is null when the handle has none. -/
theorem Message_ToV8Object_key (h : Host) (RdKafkaError : Int → Value) (mem : Memory)
    (message : RdKafka.Message) (bytes : List UInt8)
    (herr : message.err = RdKafka.ERR_NO_ERROR)
    (hpayload : mem.readBytes message.payload message.len = some bytes)
    (hlimit : message.len % 2 ^ 32 ≤ h.kMaxLength) :
    ∃ pack mem1,
      Message.ToV8Object h RdKafkaError mem message = some (Value.object pack, mem1) ∧
      Record.has pack "key" = true ∧
      (∀ key, message.key = some key → Record.get pack "key" = Value.string key) ∧
      (message.key = none → Record.get pack "key" = Value.null) := by
  obtain ⟨mem2, hres, _, _, _⟩ :=
    Message_ToV8Object_ok h RdKafkaError mem message bytes herr hpayload hlimit
  refine ⟨_, mem2, hres, rfl, ?_, ?_⟩
  · intro key hkey
    simp only [hkey]
    rfl
  · intro hkey
    simp only [hkey]
    rfl

/-- Claim C9 at a message with no key: the field `key` is there and null. -/
theorem Message_ToV8Object_key_witness :
    ({ exampleMessage with key := none } : RdKafka.Message).err = RdKafka.ERR_NO_ERROR ∧
    exampleMemory.readBytes 5 3 = some [1, 2, 3] ∧
    3 % 2 ^ 32 ≤ exampleHost.kMaxLength ∧
    ∃ pack mem1,
      Message.ToV8Object exampleHost exampleError exampleMemory
          { exampleMessage with key := none }
        = some (Value.object pack, mem1) ∧
      Record.has pack "key" = true ∧
      (∀ key, ({ exampleMessage with key := none } : RdKafka.Message).key = some key →
        Record.get pack "key" = Value.string key) ∧
      (({ exampleMessage with key := none } : RdKafka.Message).key = none →
        Record.get pack "key" = Value.null) :=
  ⟨rfl, by decide, by decide,
    Message_ToV8Object_key exampleHost exampleError exampleMemory
      { exampleMessage with key := none } [1, 2, 3] rfl (by decide) (by decide)⟩

theorem filterMap_pattern_congr (h : Host) (parameter : List Value)
    (hno : ∀ v ∈ parameter, v.IsRegExp = false) :
    parameter.filterMap (fun v =>
        if v.IsRegExp then some (cStr (Nan.GetSource v))
        else (Nan.ToString h v).map cStr)
      = parameter.filterMap (fun v => (Nan.ToString h v).map cStr) := by
  induction parameter with
  | nil => rfl
  | cons a l ih =>
    have ha : a.IsRegExp = false := hno a (List.mem_cons_self a l)
    have hl := ih (fun v hv => hno v (List.mem_cons_of_mem a hv))
    simp only [List.filterMap_cons, ha, hl]
    rfl

/-- The conversion `Topic::ToStringVector` works entry by entry. -/
theorem Topic_ToStringVector_append (h : Host) (before after : List Value) :
    Topic.ToStringVector h (before ++ after)
      = Topic.ToStringVector h before ++ Topic.ToStringVector h after := by
  simp only [Topic_ToStringVector_eq, List.filterMap_append]

/-- Claim C11 fails as stated: the pattern whose source text is a, NUL, b
is not skipped, but the entry appended for it is a, the text before the
NUL, and not the source text. -/
theorem Topic_ToStringVector_pattern_truncates :
    Nan.GetSource (Value.regexp "a\x00b") = "a\x00b" ∧
    Topic.ToStringVector exampleHost [Value.regexp "a\x00b"] = ["a"] ∧
    Topic.ToStringVector exampleHost [Value.regexp "a\x00b"]
      ≠ [Nan.GetSource (Value.regexp "a\x00b")] := by
  decide

/-- Claim C11, amended: a pattern element contributes, at its place, exactly
one entry, the pattern's source text up to its first NUL (the whole source
text when it has no NUL), whatever the host's stringification of the
pattern is and even if there is none; an array of patterns gives one entry
per pattern; and the entry is never the quoted wrapper the code computes. -/
theorem Topic_ToStringVector_pattern (h : Host) (parameter : List Value) :
    Topic.ToStringVector h parameter
        = parameter.filterMap (fun v =>
            if v.IsRegExp then some (cStr (Nan.GetSource v))
            else (Nan.ToString h v).map cStr) ∧
    (∀ (before after : List Value) (source : String),
      Topic.ToStringVector h (before ++ [Value.regexp source] ++ after)
        = Topic.ToStringVector h before ++ [cStr source] ++ Topic.ToStringVector h after) ∧
    (∀ (before after : List Value) (source : String), nulFree source = true →
      Topic.ToStringVector h (before ++ [Value.regexp source] ++ after)
        = Topic.ToStringVector h before ++ [source] ++ Topic.ToStringVector h after) ∧
    (∀ sources : List String,
      Topic.ToStringVector h (sources.map Value.regexp) = sources.map cStr) ∧
    (∀ source : String, cStr source ≠ "\"" ++ cStr source ++ "\"") := by
  have hplace : ∀ (before after : List Value) (source : String),
      Topic.ToStringVector h (before ++ [Value.regexp source] ++ after)
        = Topic.ToStringVector h before ++ [cStr source] ++ Topic.ToStringVector h after := by
    intro before after source
    rw [Topic_ToStringVector_append, Topic_ToStringVector_append]
    congr 2
  refine ⟨Topic_ToStringVector_eq h parameter, hplace, ?_, ?_, ?_⟩
  · intro before after source hsource
    rw [hplace, cStr_of_nulFree source hsource]
  · intro sources
    rw [Topic_ToStringVector_eq]
    induction sources with
    | nil => rfl
    | cons s l ih =>
      have h1 : (Value.regexp s).IsRegExp = true := rfl
      have h2 : Nan.GetSource (Value.regexp s) = s := rfl
      simp only [List.map_cons, List.filterMap_cons, h1, if_true, h2, ih]
  · intro source heq
    have hlen := congrArg String.length heq
    simp only [String.length_append] at hlen
    have hq : ("\"" : String).length = 1 := by decide
    rw [hq] at hlen
    omega

/-- Claim C11, amended, at a topic name, a pattern and a number: the pattern gives its
source, not its stringified form and not the quoted wrapper. -/
theorem Topic_ToStringVector_pattern_witness :
    Nan.ToString exampleHost (Value.regexp "^logs-.*") = some "[object]" ∧
    Topic.ToStringVector exampleHost
        [Value.string "orders", Value.regexp "^logs-.*", Value.number 42]
      = ["orders", "^logs-.*"] ∧
    Topic.ToStringVector exampleHost [Value.regexp "^logs-.*"] ≠ ["\"^logs-.*\""] ∧
    Topic.ToStringVector exampleHost [Value.regexp "^logs-.*"] ≠ ["[object]"] :=
  have t := (Topic_ToStringVector_pattern exampleHost
    [Value.string "orders", Value.regexp "^logs-.*", Value.number 42]).1
  ⟨by decide, by rw [t]; decide, by decide, by decide⟩

/-- Claim C12: on an array without pattern element `Topic::ToStringVector`
returns the same collection as `v8ArrayToStringVector`. -/
theorem Topic_ToStringVector_refines_plain (h : Host) (parameter : List Value)
    (hno : ∀ v ∈ parameter, v.IsRegExp = false) :
    Topic.ToStringVector h parameter = v8ArrayToStringVector h parameter := by
  rw [Topic_ToStringVector_eq, v8ArrayToStringVector_eq]
  exact filterMap_pattern_congr h parameter hno

/-- Claim C12 at an array of strings, a number, a symbol and null. -/
theorem Topic_ToStringVector_refines_plain_witness :
    (∀ v ∈ [Value.string "a", Value.number 42, Value.symbol "s", Value.null, Value.string "b"],
      v.IsRegExp = false) ∧
    Topic.ToStringVector exampleHost
        [Value.string "a", Value.number 42, Value.symbol "s", Value.null, Value.string "b"]
      = v8ArrayToStringVector exampleHost
        [Value.string "a", Value.number 42, Value.symbol "s", Value.null, Value.string "b"] ∧
    v8ArrayToStringVector exampleHost
        [Value.string "a", Value.number 42, Value.symbol "s", Value.null, Value.string "b"]
      = ["a", "[object]", "b"] :=
  ⟨by decide,
    Topic_ToStringVector_refines_plain exampleHost
      [Value.string "a", Value.number 42, Value.symbol "s", Value.null, Value.string "b"]
      (by decide),
    by decide⟩

/-! ## String and string-array extraction -/

/-- String extraction on a field the object has: the default when the value
is null or undefined, and the string the value converts to (read as C text)
when the value is neither and the host converts it to a string. -/
theorem GetParameter_string_present (h : Host) (object : JsObject) (f : String)
    (hpresent : Nan.Has object (cStr f) = true) :
    (∀ d : String,
      (Nan.Get object (cStr f)).IsUndefined = true ∨ (Nan.Get object (cStr f)).IsNull = true →
      GetParameter_string h object f d = some d) ∧
    (∀ (d s : String),
      (Nan.Get object (cStr f)).IsUndefined = false →
      (Nan.Get object (cStr f)).IsNull = false →
      Nan.ToString h (Nan.Get object (cStr f)) = some s →
      GetParameter_string h object f d = some (cStr s)) := by
  constructor
  · intro d hnone
    rcases hnone with hu | hn
    · simp [GetParameter_string, hpresent, hu]
    · simp [GetParameter_string, hpresent, hn]
  · intro d s hu hn hs
    have h1 : (Value.string s).IsUndefined = false := rfl
    have h2 : (Value.string s).IsNull = false := rfl
    simp [GetParameter_string, hpresent, hu, hn, hs, h1, h2]

/-- String extraction at a number, a boolean and null. -/
theorem GetParameter_string_present_example :
    GetParameter_string printingHost
      (plainObject [("id", Value.number 42), ("flag", Value.boolean true)]) "id" "d"
      = some "42" ∧
    GetParameter_string printingHost
      (plainObject [("id", Value.number 42), ("flag", Value.boolean true)]) "flag" "d"
      = some "true" ∧
    GetParameter_string printingHost (plainObject [("gone", Value.null)]) "gone" "d"
      = some "d" :=
  ⟨(GetParameter_string_present printingHost
      (plainObject [("id", Value.number 42), ("flag", Value.boolean true)]) "id"
      (by decide)).2 "d" "42" (by decide) (by decide) (by decide),
    (GetParameter_string_present printingHost
      (plainObject [("id", Value.number 42), ("flag", Value.boolean true)]) "flag"
      (by decide)).2 "d" "true" (by decide) (by decide) (by decide),
    (GetParameter_string_present printingHost (plainObject [("gone", Value.null)]) "gone"
      (by decide)).1 "d" (Or.inr (by decide))⟩

/-- Claim C13, the code at the failing input: the field `name` holds a
symbol, which is neither null nor undefined and which the host does not
convert to a string.  The extraction returns no value, neither a string for
the symbol nor the default: the empty handle that the conversion leaves is
dereferenced by the test that was to lead to the default. -/
theorem GetParameter_string_symbol_fails :
    Nan.Has (plainObject [("name", Value.symbol "s")]) (cStr "name") = true ∧
    (Nan.Get (plainObject [("name", Value.symbol "s")]) (cStr "name")).IsUndefined = false ∧
    (Nan.Get (plainObject [("name", Value.symbol "s")]) (cStr "name")).IsNull = false ∧
    Nan.ToString printingHost (Value.symbol "s") = none ∧
    GetParameter_string printingHost (plainObject [("name", Value.symbol "s")]) "name" "d"
      = none ∧
    GetParameter_string printingHost (plainObject [("name", Value.symbol "s")]) "name" "d"
      ≠ some "d" := by
  decide

/-- Narrowing to `int` gives an `int`. -/
theorem toInt32_isInt32 (x : Int) : IsInt32 (toInt32 x) := by
  unfold IsInt32 toInt32
  have h31 : (2 : Int) ^ 31 = 2147483648 := by norm_num
  have h32 : (2 : Int) ^ 32 = 4294967296 := by norm_num
  rw [h31, h32]
  omega

/-- Narrowing to `int` keeps the value modulo 2^32. -/
theorem toInt32_congruent (x : Int) : (toInt32 x - x) % 2 ^ 32 = 0 := by
  unfold toInt32
  have h31 : (2 : Int) ^ 31 = 2147483648 := by norm_num
  have h32 : (2 : Int) ^ 32 = 4294967296 := by norm_num
  rw [h31, h32]
  omega

theorem GetParameter_int64_t_numeric (h : Host) (object : JsObject) (f : String)
    (d n : Int) (hpresent : Nan.Has object (cStr f) = true)
    (hkind : (Nan.Get object (cStr f)).IsNumber = true)
    (hconv : Nan.ToInt64 h (Nan.Get object (cStr f)) = some n) :
    GetParameter_int64_t h object f d = n := by
  simp [GetParameter_int64_t, hpresent, hkind, hconv]

theorem GetParameter_int64_t_fallback (h : Host) (object : JsObject) (f : String)
    (d : Int)
    (hfall : Nan.Has object (cStr f) = false ∨ (Nan.Get object (cStr f)).IsNumber = false ∨
      Nan.ToInt64 h (Nan.Get object (cStr f)) = none) :
    GetParameter_int64_t h object f d = d := by
  unfold GetParameter_int64_t
  rcases hfall with h1 | h1 | h1
  · simp [h1]
  · simp [h1]
  · by_cases hp : Nan.Has object (cStr f) = true
    · by_cases hk : (Nan.Get object (cStr f)).IsNumber = true
      · simp [hp, hk, h1]
      · simp [hp, hk]
    · simp [hp]

/-- Claim C18: `GetParameter<int>` is `GetParameter<int64_t>` narrowed to
`int`, that is an `int` congruent to it modulo 2^32; a present number whose
64-bit value is an `int` is returned unchanged, a present number outside the
range is returned truncated, and on the fallback paths an `int` default is
returned unchanged. -/
theorem GetParameter_int_narrows (h : Host) (object : JsObject) (f : String)
    (d : Int) :
    GetParameter_int h object f d = toInt32 (GetParameter_int64_t h object f d) ∧
    IsInt32 (GetParameter_int h object f d) ∧
    (GetParameter_int h object f d - GetParameter_int64_t h object f d) % 2 ^ 32 = 0 ∧
    (∀ n : Int, Nan.Has object (cStr f) = true →
      (Nan.Get object (cStr f)).IsNumber = true →
      Nan.ToInt64 h (Nan.Get object (cStr f)) = some n →
      GetParameter_int h object f d = toInt32 n ∧
      (IsInt32 n → GetParameter_int h object f d = n)) ∧
    (IsInt32 d →
      (Nan.Has object (cStr f) = false ∨ (Nan.Get object (cStr f)).IsNumber = false ∨
        Nan.ToInt64 h (Nan.Get object (cStr f)) = none) →
      GetParameter_int h object f d = d) := by
  refine ⟨rfl, toInt32_isInt32 _, toInt32_congruent _, ?_, ?_⟩
  · intro n hpresent hkind hconv
    have h64 := GetParameter_int64_t_numeric h object f d n hpresent hkind hconv
    unfold GetParameter_int
    rw [h64]
    exact ⟨rfl, toInt32_of_IsInt32 n⟩
  · intro hd hfall
    unfold GetParameter_int
    rw [GetParameter_int64_t_fallback h object f d hfall]
    exact toInt32_of_IsInt32 d hd

/-- Claim C18 at 2^32 + 1 (truncated to 1, not replaced by the default 7),
at -5, at a string and at a missing field. -/
theorem GetParameter_int_narrows_witness :
    GetParameter_int64_t exampleHost (plainObject [("count", Value.number 4294967297)])
      "count" 7 = 4294967297 ∧
    GetParameter_int exampleHost (plainObject [("count", Value.number 4294967297)])
      "count" 7 = 1 ∧
    GetParameter_int exampleHost (plainObject [("count", Value.number (-5))]) "count" 7 = -5 ∧
    GetParameter_int exampleHost (plainObject [("count", Value.string "12")]) "count" 7 = 7 ∧
    GetParameter_int exampleHost (plainObject []) "count" 7 = 7 :=
  ⟨by decide,
    ((GetParameter_int_narrows exampleHost (plainObject [("count", Value.number 4294967297)])
      "count" 7).2.2.2.1 4294967297 (by decide) (by decide) (by decide)).1.trans (by decide),
    ((GetParameter_int_narrows exampleHost (plainObject [("count", Value.number (-5))])
      "count" 7).2.2.2.1 (-5) (by decide) (by decide) (by decide)).2 (by decide),
    (GetParameter_int_narrows exampleHost (plainObject [("count", Value.string "12")])
      "count" 7).2.2.2.2 (by decide) (Or.inr (Or.inl (by decide))),
    (GetParameter_int_narrows exampleHost (plainObject []) "count" 7).2.2.2.2
      (by decide) (Or.inl (by decide))⟩

/-- Claim C15: `Topic::ToV8Array` gives one array entry per collection
entry: same length, and at every index the string of the collection at
that index. -/
theorem Topic_ToV8Array_one_per_entry (parameter : List String) :
    Topic.ToV8Array parameter = parameter.map Value.string ∧
    (Topic.ToV8Array parameter).length = parameter.length ∧
    (∀ i : Nat, (Topic.ToV8Array parameter)[i]? = parameter[i]?.map Value.string) := by
  rw [Topic_ToV8Array_eq]
  refine ⟨rfl, List.length_map _ _, ?_⟩
  intro i
  exact List.getElem?_map _ _ _

/-- Claim C15 at three topic names, one of them repeated. -/
theorem Topic_ToV8Array_one_per_entry_witness :
    Topic.ToV8Array ["orders", "payments", "orders"]
      = [Value.string "orders", Value.string "payments", Value.string "orders"] ∧
    (Topic.ToV8Array ["orders", "payments", "orders"]).length = 3 :=
  ⟨(Topic_ToV8Array_one_per_entry ["orders", "payments", "orders"]).1,
    (Topic_ToV8Array_one_per_entry ["orders", "payments", "orders"]).2.1⟩

/-! ## Destruction of the handles -/

/-- Claim C16: on a collection of live, distinct handles the deletions
performed are the handles of the collection, in order, each one once; after
the call none of them is alive, every other handle is as it was, and there
is one record per deletion. -/
theorem TopicPartition_ToV8Array_deletes_once (heap : HandleHeap)
    (topic_partition_list : List Ptr)
    (hlive : ∀ p ∈ topic_partition_list, (heap.live p).isSome = true)
    (hnodup : topic_partition_list.Nodup) :
    ∃ array heap1 list1,
      TopicPartition.ToV8Array heap topic_partition_list = some (array, heap1, list1) ∧
      heap1.deleted = heap.deleted ++ topic_partition_list ∧
      (∀ p ∈ topic_partition_list,
        topic_partition_list.count p = 1 ∧ heap1.live p = none) ∧
      (∀ p, p ∉ topic_partition_list → heap1.live p = heap.live p) ∧
      array.length = topic_partition_list.length := by
  refine ⟨_, _, _, TopicPartition_ToV8Array_eq heap topic_partition_list hlive hnodup,
    HandleHeap_foldl_delete_deleted topic_partition_list heap, ?_, ?_, ?_⟩
  · intro p hp
    exact ⟨List.count_eq_one_of_mem hnodup hp,
      HandleHeap_foldl_delete_dead topic_partition_list heap p hp⟩
  · intro p hp
    exact HandleHeap_foldl_delete_live topic_partition_list heap p hp
  · apply length_filterMap_of_isSome
    intro q hq
    obtain ⟨tq, htq⟩ := Option.isSome_iff_exists.mp (hlive q hq)
    simp [htq]

/-- Claim C16 at three handles. -/
theorem TopicPartition_ToV8Array_deletes_once_witness :
    (∀ p ∈ [3, 1, 2], (exampleHandles.live p).isSome = true) ∧ [3, 1, 2].Nodup ∧
    ∃ array heap1 list1,
      TopicPartition.ToV8Array exampleHandles [3, 1, 2] = some (array, heap1, list1) ∧
      heap1.deleted = exampleHandles.deleted ++ [3, 1, 2] ∧
      (∀ p ∈ [3, 1, 2], [3, 1, 2].count p = 1 ∧ heap1.live p = none) ∧
      (∀ p, p ∉ [3, 1, 2] → heap1.live p = exampleHandles.live p) ∧
      array.length = [3, 1, 2].length :=
  ⟨by decide, by decide,
    TopicPartition_ToV8Array_deletes_once exampleHandles [3, 1, 2] (by decide) (by decide)⟩

/-! ## Independence of the copied payload -/

/-- A pointer listed twice is read after its deletion: the call has no
defined result. -/
theorem TopicPartition_ToV8Array_repeated_pointer :
    TopicPartition.ToV8Array exampleHandles [1, 1] = none := rfl

theorem lookup_filter_ne (l : List (Ptr × List UInt8)) (p q : Ptr) (hq : q ≠ p) :
    (l.filter (fun b => !(b.1 == p))).lookup q = l.lookup q := by
  induction l with
  | nil => rfl
  | cons b l ih =>
    obtain ⟨k, v⟩ := b
    by_cases hkp : k = p
    · have hqk : (q == k) = false := by simp [hkp, hq]
      simp only [List.filter_cons, hkp, beq_self_eq_true, Bool.not_true, Bool.false_eq_true,
        if_false]
      rw [List.lookup_cons, ← hkp, hqk]
      simp only [hkp]
      exact ih
    · have hkp1 : (k == p) = false := by simp [hkp]
      simp only [List.filter_cons, hkp1, Bool.not_false, if_true]
      rw [List.lookup_cons, List.lookup_cons, ih]

/-- Freeing a block changes that block only. -/
theorem Memory_read_free (m : Memory) (p q : Ptr) (hq : q ≠ p) :
    (m.free p).read q = m.read q := by
  unfold Memory.free Memory.read
  exact lookup_filter_ne m.blocks p q hq

theorem Memory_read_free_self (m : Memory) (p : Ptr) : (m.free p).read p = none := by
  unfold Memory.free Memory.read
  rw [List.lookup_eq_none_iff]
  intro b hb
  have hne : ¬ b.1 = p := by simpa using (List.mem_filter.mp hb).2
  simpa using fun heq => hne heq.symm

theorem Memory_fresh_pos (m : Memory) : m.fresh ≠ 0 := by
  unfold Memory.fresh
  exact Nat.succ_ne_zero _

/-- Claim C17: the bytes seen through `value` are the same after the
handle's payload block is freed and after it is overwritten with any bytes:
`value` wraps a block of its own. -/
theorem Message_ToV8Object_value_independent (h : Host) (RdKafkaError : Int → Value)
    (mem : Memory) (message : RdKafka.Message) (bytes : List UInt8)
    (herr : message.err = RdKafka.ERR_NO_ERROR)
    (hpayload : mem.readBytes message.payload message.len = some bytes)
    (hlimit : message.len % 2 ^ 32 ≤ h.kMaxLength)
    (hhandle : message.payload = 0 ∨ (mem.read message.payload).isSome = true) :
    ∃ pack mem1 value,
      Message.ToV8Object h RdKafkaError mem message = some (Value.object pack, mem1) ∧
      value = bytes.take (message.len % 2 ^ 32) ∧
      mem1.bufferBytes (Record.get pack "value") = some value ∧
      (mem1.free message.payload).bufferBytes (Record.get pack "value") = some value ∧
      (∀ other : List UInt8,
        (mem1.write message.payload other).bufferBytes (Record.get pack "value") = some value) ∧
      (mem1.free message.payload).read message.payload = none := by
  obtain ⟨mem2, hres, hread, _, _⟩ :=
    Message_ToV8Object_ok h RdKafkaError mem message bytes herr hpayload hlimit
  have hne : mem.fresh ≠ message.payload := by
    rcases hhandle with h0 | hlive
    · rw [h0]; exact Memory_fresh_pos mem
    · obtain ⟨block, hblock⟩ := Option.isSome_iff_exists.mp hlive
      exact fun heq => Memory_read_ne_fresh mem message.payload block hblock heq.symm
  have hget := Message_value_field mem.fresh (message.len % 2 ^ 32)
    (Value.number (toDouble message.len))
    (match message.key with
      | some key => Value.string key
      | none => Value.null)
    (Value.string message.topic_name) (Value.number (toDouble message.offset))
    (Value.number message.partition)
  refine ⟨_, mem2, bytes.take (message.len % 2 ^ 32), hres, rfl, ?_, ?_, ?_,
    Memory_read_free_self mem2 message.payload⟩
  · rw [hget]
    simp only [Memory.bufferBytes, hread, Option.map_some']
  · rw [hget]
    simp only [Memory.bufferBytes, Memory_read_free mem2 message.payload mem.fresh hne, hread,
      Option.map_some']
  · intro other
    rw [hget]
    simp only [Memory.bufferBytes, Memory_read_write, if_neg hne, hread, Option.map_some']

/-- Claim C17 at the payload 1, 2, 3. -/
theorem Message_ToV8Object_value_independent_witness :
    exampleMessage.err = RdKafka.ERR_NO_ERROR ∧
    exampleMemory.readBytes exampleMessage.payload exampleMessage.len = some [1, 2, 3] ∧
    exampleMessage.len % 2 ^ 32 ≤ exampleHost.kMaxLength ∧
    (exampleMemory.read exampleMessage.payload).isSome = true ∧
    ∃ pack mem1 value,
      Message.ToV8Object exampleHost exampleError exampleMemory exampleMessage
        = some (Value.object pack, mem1) ∧
      value = [1, 2, 3] ∧
      mem1.bufferBytes (Record.get pack "value") = some value ∧
      (mem1.free exampleMessage.payload).bufferBytes (Record.get pack "value") = some value ∧
      (∀ other : List UInt8,
        (mem1.write exampleMessage.payload other).bufferBytes (Record.get pack "value")
          = some value) ∧
      (mem1.free exampleMessage.payload).read exampleMessage.payload = none :=
  ⟨rfl, by decide, by decide, by decide,
    Message_ToV8Object_value_independent exampleHost exampleError exampleMemory exampleMessage
      [1, 2, 3] rfl (by decide) (by decide) (Or.inr (by decide))⟩

/-! ## Size and buffer length -/

/-- The bit length of a positive number is not too large. -/
theorem two_pow_bitLengthAux_le (fuel : Nat) :
    ∀ a : Nat, a ≠ 0 → 2 ^ (bitLengthAux fuel a - 1) ≤ a := by
  induction fuel with
  | zero =>
    intro a ha
    exact Nat.one_le_iff_ne_zero.mpr ha
  | succ fuel ih =>
    intro a ha
    have hstep : bitLengthAux (fuel + 1) a = bitLengthAux fuel (a / 2) + 1 := by
      rw [bitLengthAux, if_neg ha]
    rw [hstep, Nat.add_sub_cancel]
    by_cases hhalf : a / 2 = 0
    · have hzero : bitLengthAux fuel (a / 2) = 0 := by
        rw [hhalf]
        cases fuel <;> rfl
      rw [hzero]
      exact Nat.one_le_iff_ne_zero.mpr ha
    · have hrec := ih (a / 2) hhalf
      by_cases hlen : bitLengthAux fuel (a / 2) = 0
      · rw [hlen]
        exact Nat.one_le_iff_ne_zero.mpr ha
      · have hsplit : bitLengthAux fuel (a / 2)
            = (bitLengthAux fuel (a / 2) - 1) + 1 := by omega
        rw [hsplit, Nat.pow_succ]
        omega

/-- A length from 2^32 on is, as a double, at least 2^32. -/
theorem toDouble_natCast_ge (n : Nat) (hn : 2 ^ 32 ≤ n) :
    (2 : Int) ^ 32 ≤ toDouble (n : Int) := by
  by_cases hs : n ≤ 2 ^ 53
  · rw [toDouble_natCast n hs]
    exact_mod_cast hn
  · have hpos : n ≠ 0 := by
      intro h0
      rw [h0] at hn
      exact absurd hn (by norm_num)
    have hbig : 2 ^ 53 < n := Nat.lt_of_not_le hs
    have hshift : 2 ^ (bitLength n - 53) ≤ n :=
      Nat.le_trans
        (Nat.pow_le_pow_right (by norm_num)
          (show bitLength n - 53 ≤ bitLengthAux n n - 1 by unfold bitLength; omega))
        (two_pow_bitLengthAux_le n n hpos)
    have hm : 0 < 2 ^ (bitLength n - 53) := Nat.pow_pos (by norm_num)
    have hq : 1 ≤ n / 2 ^ (bitLength n - 53) := (Nat.one_le_div_iff hm).mpr hshift
    have hdiv := Nat.div_add_mod n (2 ^ (bitLength n - 53))
    have hrem := Nat.mod_lt n hm
    have hprod : 2 ^ (bitLength n - 53)
        ≤ 2 ^ (bitLength n - 53) * (n / 2 ^ (bitLength n - 53)) :=
      Nat.le_mul_of_pos_right _ hq
    have hlow : 2 ^ 32 ≤ 2 ^ (bitLength n - 53) * (n / 2 ^ (bitLength n - 53)) := by
      have h53 : (2 : Nat) ^ 53 = 9007199254740992 := by norm_num
      have h32 : (2 : Nat) ^ 32 = 4294967296 := by norm_num
      rw [h53] at hbig
      rw [h32]
      omega
    have hsign : Int.sign (n : Int) = 1 :=
      Int.sign_eq_one_of_pos (by exact_mod_cast Nat.pos_of_ne_zero hpos)
    unfold toDouble
    rw [if_neg (by rw [Int.natAbs_ofNat]; exact hs), hsign, Int.natAbs_ofNat, one_mul]
    have hround : n / 2 ^ (bitLength n - 53) * 2 ^ (bitLength n - 53)
        ≤ (if 2 ^ (bitLength n - 53 - 1) < n % 2 ^ (bitLength n - 53) ∨
              (n % 2 ^ (bitLength n - 53) = 2 ^ (bitLength n - 53 - 1) ∧
                n / 2 ^ (bitLength n - 53) % 2 = 1)
            then n / 2 ^ (bitLength n - 53) + 1 else n / 2 ^ (bitLength n - 53))
          * 2 ^ (bitLength n - 53) := by
      apply Nat.mul_le_mul_right
      split <;> omega
    rw [Nat.mul_comm] at hlow
    exact_mod_cast Nat.le_trans hlow hround

/-- The number of bytes of `value` and the field `size` of a message without
error, when the host can make the buffer. -/
theorem Message_ToV8Object_value_length (h : Host) (RdKafkaError : Int → Value) (mem : Memory)
    (message : RdKafka.Message) (bytes : List UInt8)
    (herr : message.err = RdKafka.ERR_NO_ERROR)
    (hpayload : mem.readBytes message.payload message.len = some bytes)
    (hlimit : message.len % 2 ^ 32 ≤ h.kMaxLength) :
    ∃ pack mem1 value,
      Message.ToV8Object h RdKafkaError mem message = some (Value.object pack, mem1) ∧
      mem1.bufferBytes (Record.get pack "value") = some value ∧
      value.length = message.len % 2 ^ 32 ∧
      Record.get pack "size" = Value.number (toDouble message.len) := by
  obtain ⟨mem2, hres, hread, hlen, _⟩ :=
    Message_ToV8Object_ok h RdKafkaError mem message bytes herr hpayload hlimit
  refine ⟨_, mem2, bytes.take (message.len % 2 ^ 32), hres, ?_, ?_, rfl⟩
  · rw [Message_value_field]
    simp only [Memory.bufferBytes, hread, Option.map_some']
  · rw [List.length_take, hlen]
    exact Nat.min_eq_left (Nat.mod_le _ _)

/-- Claim C19, amended: for a message without error whose payload can be
read, the call aborts when the payload length modulo 2^32 is above the
largest buffer of the host; otherwise `value` has the payload length modulo
2^32 bytes and `size` is the payload length as a double, and the two are
equal exactly when the payload length is below 2^32. -/
theorem Message_ToV8Object_size_matches (h : Host) (RdKafkaError : Int → Value) (mem : Memory)
    (message : RdKafka.Message) (bytes : List UInt8)
    (herr : message.err = RdKafka.ERR_NO_ERROR)
    (hpayload : mem.readBytes message.payload message.len = some bytes) :
    (h.kMaxLength < message.len % 2 ^ 32 →
      Message.ToV8Object h RdKafkaError mem message = none) ∧
    (message.len % 2 ^ 32 ≤ h.kMaxLength →
      ∃ pack mem1 value,
        Message.ToV8Object h RdKafkaError mem message = some (Value.object pack, mem1) ∧
        mem1.bufferBytes (Record.get pack "value") = some value ∧
        value.length = message.len % 2 ^ 32 ∧
        Record.get pack "size" = Value.number (toDouble message.len) ∧
        (Record.get pack "size" = Value.number value.length ↔ message.len < 2 ^ 32)) := by
  refine ⟨Message_ToV8Object_abort h RdKafkaError mem message herr, ?_⟩
  intro hlimit
  obtain ⟨pack, mem1, value, hres, hval, hlen, hsize⟩ :=
    Message_ToV8Object_value_length h RdKafkaError mem message bytes herr hpayload hlimit
  refine ⟨pack, mem1, value, hres, hval, hlen, hsize, ?_⟩
  rw [hsize, hlen]
  constructor
  · intro heq
    by_contra hge
    have hbig := toDouble_natCast_ge message.len (Nat.le_of_not_lt hge)
    have hsame : toDouble (message.len : Int) = ((message.len % 2 ^ 32 : Nat) : Int) :=
      Value.number.inj heq
    have hsmall : message.len % 2 ^ 32 < 2 ^ 32 := Nat.mod_lt _ (by norm_num)
    rw [hsame] at hbig
    have hnat : 2 ^ 32 ≤ message.len % 2 ^ 32 := by exact_mod_cast hbig
    exact absurd hnat (Nat.not_le.mpr hsmall)
  · intro hlt
    rw [Nat.mod_eq_of_lt hlt,
      toDouble_natCast message.len (Nat.le_of_lt (Nat.lt_of_lt_of_le hlt (by norm_num)))]

/-- Claim C19, amended, at a payload of three bytes. -/
theorem Message_ToV8Object_size_matches_witness :
    exampleMessage.err = RdKafka.ERR_NO_ERROR ∧
    exampleMemory.readBytes exampleMessage.payload exampleMessage.len = some [1, 2, 3] ∧
    exampleMessage.len % 2 ^ 32 ≤ exampleHost.kMaxLength ∧
    ∃ pack mem1 value,
      Message.ToV8Object exampleHost exampleError exampleMemory exampleMessage
        = some (Value.object pack, mem1) ∧
      mem1.bufferBytes (Record.get pack "value") = some value ∧
      value.length = 3 ∧
      Record.get pack "size" = Value.number (toDouble 3) ∧
      (Record.get pack "size" = Value.number value.length ↔ exampleMessage.len < 2 ^ 32) :=
  ⟨rfl, by decide, by decide,
    (Message_ToV8Object_size_matches exampleHost exampleError exampleMemory exampleMessage
      [1, 2, 3] rfl (by decide)).2 (by decide)⟩

/-- Claim C19 fails as stated.  For a payload of 2^32 + 1 bytes `value` has
one byte and `size` is 2^32 + 1.  And for a payload of 2^31 bytes, the first
length that does not fit in an `int`, on a host whose largest buffer has
2^30 - 1 bytes, the call aborts: there is no object whose fields could
agree. -/
theorem Message_ToV8Object_size_exceeds_value :
    (hugeMemory.readBytes hugeMessage.payload hugeMessage.len
        = some (List.replicate hugeLength 0) ∧
      ∃ pack mem1 value,
        Message.ToV8Object exampleHost exampleError hugeMemory hugeMessage
          = some (Value.object pack, mem1) ∧
        mem1.bufferBytes (Record.get pack "value") = some value ∧
        value.length = 1 ∧
        Record.get pack "size" = Value.number hugeLength ∧
        Record.get pack "size" ≠ Value.number value.length) ∧
    (intOverflowMemory.readBytes intOverflowMessage.payload intOverflowMessage.len
        = some (List.replicate intOverflowLength 0) ∧
      Message.ToV8Object exampleHost exampleError intOverflowMemory intOverflowMessage
        = none) := by
  have hpayload : hugeMemory.readBytes hugeMessage.payload hugeMessage.len
      = some (List.replicate hugeLength 0) :=
    Memory_readBytes_block 1 (List.replicate hugeLength 0) hugeLength
      (List.length_replicate _ _)
  obtain ⟨pack, mem1, value, hres, hval, hlen, hsize⟩ :=
    Message_ToV8Object_value_length exampleHost exampleError hugeMemory hugeMessage _ rfl
      hpayload (by decide)
  have hmod : hugeMessage.len % 2 ^ 32 = 1 := by decide
  have hexact : toDouble (hugeMessage.len : Int) = (hugeLength : Int) :=
    toDouble_natCast hugeLength (by decide)
  rw [hmod] at hlen
  rw [hexact] at hsize
  refine ⟨⟨hpayload, pack, mem1, value, hres, hval, hlen, hsize, ?_⟩, ?_⟩
  · rw [hsize, hlen]
    intro heq
    have hnat : hugeLength = 1 := by
      have := Value.number.inj heq
      exact_mod_cast this
    have hne : hugeLength ≠ 1 := by decide
    exact hne hnat
  · exact ⟨Memory_readBytes_block 1 (List.replicate intOverflowLength 0) intOverflowLength
        (List.length_replicate _ _),
      Message_ToV8Object_abort exampleHost exampleError intOverflowMemory intOverflowMessage
        rfl (by decide)⟩

end NodeKafka
